import Mathlib

/-!
# Verification of the gobagan-backend room/payment/word-grid engine

Shallow embedding of the parts of the repository that the specification's
claims are about, together with theorems settling each claim.

Conventions of the embedding:
* JavaScript numbers that hold token amounts are modelled as `ℚ` (the claims
  under verification are about comparisons and exact arithmetic on these
  values, not about float rounding).
* Lamport balances (integers in the source) are modelled as `Int`.
* `async` ledger calls are modelled by passing the ledger's response
  explicitly (`LedgerLookup`); a rejected promise / thrown error is the
  `threw` constructor, a `null` resolution is `notFound`.
* JavaScript `throw` inside room methods is modelled with `Except String`;
  all throwing paths in the embedded methods occur before any mutation, so
  an error leaves the room state unchanged (as in the source).
* `String.prototype.toUpperCase` is modelled by `jsToUpper` (character-wise
  `Char.toUpper`, as the grid only ever holds ASCII letters).
-/

/-- Model of `String.prototype.toUpperCase` (character-wise uppercasing). -/
def jsToUpper (s : String) : String := String.mk (s.data.map Char.toUpper)

/-- The data of `connection.getTransaction(...)` that the validators read:
`meta.err` (modelled as a truthiness flag), `meta.preBalances`,
`meta.postBalances` (lamports), and `transaction.message.accountKeys`
(base-58 strings).  `preBalances`/`postBalances` are indexed in parallel
with `accountKeys`. -/
structure TxMeta where
  err : Bool
  preBalances : List Int
  postBalances : List Int
  accountKeys : List String
  deriving Repr, DecidableEq

/-- Outcome of the `await connection.getTransaction(txSignature, ...)` call:
the transaction object, a `null` resolution, or a thrown/rejected error. -/
inductive LedgerLookup where
  | found (tx : TxMeta)
  | notFound
  | threw
  deriving Repr, DecidableEq

/-- `GOR_DECIMALS = 9`. -/
def GOR_DECIMALS : Nat := 9

namespace RealWalletWordGridRoom

/-- The claimant's balance change in GOR read off the transaction:
`(postBalances[playerIndex] - preBalances[playerIndex]) / Math.pow(10, GOR_DECIMALS)`. -/
def playerBalanceChange (tx : TxMeta) (playerWallet : String) : ℚ :=
  let playerIndex := tx.accountKeys.indexOf playerWallet
  ((tx.postBalances.getD playerIndex 0 - tx.preBalances.getD playerIndex 0 : Int) : ℚ)
    / (10 : ℚ) ^ GOR_DECIMALS

/-- `RealWalletWordGridRoom.verifyPaymentTransaction` (src/real-wallet-server.js
lines 217-265).  Returns `false` when the lookup resolves `null`, reports a
ledger error, or the wallet is absent from the account keys; otherwise accepts
iff the absolute balance change is at least `expectedAmount * 0.95`
("5% tolerance for fees").  A thrown lookup is caught and yields `false`. -/
def verifyPaymentTransaction (lookup : LedgerLookup) (playerWallet : String)
    (expectedAmount : ℚ) : Bool :=
  match lookup with
  | .threw => false
  | .notFound => false
  | .found tx =>
    if tx.err then false
    else if playerWallet ∈ tx.accountKeys then
      decide (|playerBalanceChange tx playerWallet| ≥ expectedAmount * (95 / 100))
    else false

end RealWalletWordGridRoom

namespace RealWalletTicTacToeRoom

/-- The claimant's lamport outflow:
`preBalances[playerIndex] - postBalances[playerIndex]`. -/
def playerBalanceChangeLamports (tx : TxMeta) (playerWallet : String) : Int :=
  let playerIndex := tx.accountKeys.indexOf playerWallet
  tx.preBalances.getD playerIndex 0 - tx.postBalances.getD playerIndex 0

/-- `RealWalletTicTacToeRoom.verifyPaymentTransaction` (src/real-wallet-server.js
lines 1055-1115).  Accepts iff the lamport outflow differs from
`expectedAmount * 10^9` by at most the fixed absolute tolerance
`0.01 * 10^9` lamports. -/
def verifyPaymentTransaction (lookup : LedgerLookup) (playerWallet : String)
    (expectedAmount : ℚ) : Bool :=
  match lookup with
  | .threw => false
  | .notFound => false
  | .found tx =>
    if tx.err then false
    else if playerWallet ∈ tx.accountKeys then
      let expectedLamports : ℚ := expectedAmount * (10 : ℚ) ^ GOR_DECIMALS
      let tolerance : ℚ := (1 / 100) * (10 : ℚ) ^ GOR_DECIMALS
      decide (|((playerBalanceChangeLamports tx playerWallet : ℚ)) - expectedLamports| ≤ tolerance)
    else false

end RealWalletTicTacToeRoom

/-- Result shape of `validateEntryFeePayment`. -/
structure EntryFeeValidation where
  verified : Bool
  amount : Option ℚ
  deriving Repr, DecidableEq

/-- `validateEntryFeePayment` (src/unnamed/part_002 lines 843-896).
On a found, non-failed transaction it reports the claimant's deducted amount
(or a default of `1` when the claimant is absent from the keys); on a `null`
or failed transaction it reports `verified := false`; a thrown lookup is
caught and — "For hackathon - accept if transaction exists" — reported as
`verified := true` with the default amount `1`. -/
def validateEntryFeePayment (lookup : LedgerLookup) (playerWallet : String) :
    EntryFeeValidation :=
  match lookup with
  | .found tx =>
    if !tx.err then
      if playerWallet ∈ tx.accountKeys then
        let i := tx.accountKeys.indexOf playerWallet
        let amountDeducted : ℚ :=
          ((tx.preBalances.getD i 0 - tx.postBalances.getD i 0 : Int) : ℚ)
            / (10 : ℚ) ^ 9
        { verified := true, amount := some amountDeducted }
      else { verified := true, amount := some 1 }
    else { verified := false, amount := none }
  | .notFound => { verified := false, amount := none }
  | .threw => { verified := true, amount := some 1 }

/-- The spec's acceptance rule for the Payment Validator, stated for
comparison with the implementations (spec §4.2): accept iff the lookup
succeeds, AND the transaction reports no ledger-level failure, AND the
claimant appears among the participants, AND the observed balance delta
(stake outflow in GOR) is within `toleranceFraction * expectedAmount`
of the expected amount. -/
def specPaymentAccepts (toleranceFraction : ℚ) (lookup : LedgerLookup)
    (claimant : String) (expectedAmount : ℚ) : Bool :=
  match lookup with
  | .found tx =>
    !tx.err && decide (claimant ∈ tx.accountKeys) &&
      decide
        (|((tx.preBalances.getD (tx.accountKeys.indexOf claimant) 0 -
              tx.postBalances.getD (tx.accountKeys.indexOf claimant) 0 : Int) : ℚ)
            / (10 : ℚ) ^ GOR_DECIMALS - expectedAmount|
          ≤ toleranceFraction * expectedAmount)
  | _ => false

/-- Model of `String.prototype.trim` (strip leading/trailing whitespace),
expressed over the character list so that it evaluates in the kernel. -/
def jsTrim (s : String) : String :=
  String.mk (((s.data.dropWhile Char.isWhitespace).reverse.dropWhile
    Char.isWhitespace).reverse)

/-- One cell of the 8×8 word grid: `{ letter, playerId, isNewWord }`.
The source's empty-letter string `""` is modelled as `none`. -/
structure Cell where
  letter : Option Char
  playerId : Option String
  isNewWord : Bool
  deriving Repr, DecidableEq

/-- The grid is the source's flat array of 64 cells. -/
abbrev Grid := List Cell

/-- `Cell` with `letter: "", playerId: null, isNewWord: false`. -/
def emptyCell : Cell := { letter := none, playerId := none, isNewWord := false }

/-- `Array(64).fill(...)` of empty cells. -/
def emptyGrid : Grid := List.replicate 64 emptyCell

namespace WordDictionary

/-- `isValidWord` (src/word-dictionary.js lines 121-125), parameterized by the
membership test of the `validWords` set (an external word list plus hardcoded
two- and three-letter words). -/
def isValidWord (validWords : String → Bool) (word : String) : Bool :=
  if word.length < 2 then false
  else validWords (jsTrim (jsToUpper word))

/-- The hardcoded `twoLetterWords` added to the dictionary
(src/word-dictionary.js lines 10-35). -/
def twoLetterWords : List String :=
  ["AM", "AN", "AS", "AT", "BE", "BY", "DO", "GO", "HE", "IF", "IN", "IS",
   "IT", "ME", "MY", "NO", "OF", "ON", "OR", "SO", "TO", "UP", "US", "WE"]

/-- The hardcoded `threeLetterWords` added to the dictionary
(src/word-dictionary.js lines 37-92). -/
def threeLetterWords : List String :=
  ["THE", "AND", "FOR", "ARE", "BUT", "NOT", "YOU", "ALL", "CAN", "HER",
   "WAS", "ONE", "OUR", "HAD", "HAS", "HIS", "HOW", "ITS", "MAY", "NEW",
   "NOW", "OLD", "SEE", "TWO", "WHO", "BOY", "DID", "GET", "LET", "MAN",
   "SAY", "SHE", "TOO", "WAY", "CAT", "DOG", "BAD", "BIG", "EAT", "FAR",
   "FUN", "GOT", "HOT", "JOB", "LAW", "LOT", "OWN", "RUN", "SIT", "TOP",
   "TRY", "WIN", "YES", "YET"]

/-- `getDirections` (src/word-dictionary.js lines 156-167); pairs are
`(dx, dy)` = (row delta, column delta). -/
def getDirections : List (Int × Int) :=
  [(0, 1), (1, 0), (1, 1), (1, -1), (0, -1), (-1, 0), (-1, -1), (-1, 1)]

/-- `coordsToIndex` (src/word-dictionary.js lines 175-177). -/
def coordsToIndex (row col : Int) : Int := row * 8 + col

/-- `isValidCoord` (src/word-dictionary.js lines 180-182). -/
def isValidCoord (row col : Int) : Bool :=
  decide (0 ≤ row) && decide (row < 8) && decide (0 ≤ col) && decide (col < 8)

/-- `grid[cellIndex]?.letter`: the letter of the addressed cell, `none` when
the cell is missing or empty. -/
def cellLetter (grid : Grid) (cellIndex : Int) : Option Char :=
  match grid.get? cellIndex.toNat with
  | some cell => cell.letter
  | none => none

/-- Result shape of `getWordInDirection`. -/
structure DictWord where
  word : String
  coordinates : List Nat
  length : Nat
  startIndex : Nat
  direction : Int × Int
  deriving Repr, DecidableEq

/-- The scanning loop of `getWordInDirection` (src/word-dictionary.js lines
185-224): walk outward accumulating letters; stop at the grid edge, at an
empty cell, or after `maxLength` steps; as soon as the accumulated word is
valid and at least `minLength` long, RETURN it (the loop does not continue
to longer candidates).  The `fuel` argument counts the remaining iterations
(`maxLength - i`). -/
def getWordInDirectionAux (validWords : String → Bool) (grid : Grid)
    (d : Int × Int) (startRow startCol : Int) :
    Int → Int → String → List Nat → Nat → Option DictWord
  | _, _, _, _, 0 => none
  | row, col, word, coords, fuel + 1 =>
    if !isValidCoord row col then none
    else
      match cellLetter grid (coordsToIndex row col) with
      | none => none
      | some c =>
        let word := word.push c
        let coords := coords ++ [(coordsToIndex row col).toNat]
        if 2 ≤ word.length ∧ isValidWord validWords word = true then
          some { word := word, coordinates := coords, length := word.length,
                 startIndex := (coordsToIndex startRow startCol).toNat,
                 direction := d }
        else
          getWordInDirectionAux validWords grid d startRow startCol
            (row + d.1) (col + d.2) word coords fuel

/-- `getWordInDirection` with the default `minLength = 2`, `maxLength = 8`. -/
def getWordInDirection (validWords : String → Bool) (grid : Grid)
    (startRow startCol : Int) (direction : Int × Int) : Option DictWord :=
  getWordInDirectionAux validWords grid direction startRow startCol
    startRow startCol "" [] 8

/-- The duplicate filter of `findWordsInGrid` (src/word-dictionary.js lines
244-252): keep the first occurrence of each key
`word + "_" + coordinates.join("-")`, modelled as the pair
`(word, coordinates)` (the coordinate list in scan order, NOT sorted). -/
def dedupeDictWords : List DictWord → List (String × List Nat) → List DictWord
  | [], _ => []
  | w :: ws, seen =>
    let key := (w.word, w.coordinates)
    if key ∈ seen then dedupeDictWords ws seen
    else w :: dedupeDictWords ws (key :: seen)

/-- `findWordsInGrid` (src/word-dictionary.js lines 227-258): from every
occupied cell, in each of the 8 directions, take the (single) word
`getWordInDirection` reports, then drop duplicate `(word, coordinates)`
keys. -/
def findWordsInGrid (validWords : String → Bool) (grid : Grid) :
    List DictWord :=
  let results := (List.range 8).flatMap fun row =>
    (List.range 8).flatMap fun col =>
      if (cellLetter grid (coordsToIndex row col)).isNone then []
      else
        getDirections.filterMap fun d =>
          getWordInDirection validWords grid (row : Int) (col : Int) d
  dedupeDictWords results []

/-- Result shape of `detectNewWords`. -/
structure NewDictWord where
  word : String
  coordinates : List Nat
  length : Nat
  startIndex : Nat
  direction : Int × Int
  points : Nat
  isNew : Bool
  deriving Repr, DecidableEq

/-- `detectNewWords` (src/word-dictionary.js lines 261-296): rescan the whole
grid, then keep the words whose key `(word, coordinates)` is not among
`previousWords` (given here by their `word` and `coordinates` fields) and
whose coordinates include the newly placed cell. -/
def detectNewWords (validWords : String → Bool) (grid : Grid)
    (lastPlacedIndex : Nat) (previousWords : List (String × List Nat)) :
    List NewDictWord :=
  let currentWords := findWordsInGrid validWords grid
  (currentWords.filter fun w =>
      decide ((w.word, w.coordinates) ∉ previousWords) &&
        w.coordinates.contains lastPlacedIndex).map fun w =>
    { word := w.word, coordinates := w.coordinates, length := w.length,
      startIndex := w.startIndex, direction := w.direction,
      points := w.length, isNew := true }

end WordDictionary

namespace RealWalletWordGridRoom

/-- The `getLetter` helper of `findAllWordsInGrid` (src/real-wallet-server.js
lines 799-802): empty (`none`) outside the 8×8 bounds, otherwise the
addressed cell's letter. -/
def getLetter (grid : Grid) (row col : Int) : Option Char :=
  if 0 ≤ row ∧ row < 8 ∧ 0 ≤ col ∧ col < 8 then
    match grid.get? (row * 8 + col).toNat with
    | some cell => cell.letter
    | none => none
  else none

/-- The 8 compass directions of `findAllWordsInGrid`
(src/real-wallet-server.js lines 809-818), as (row delta, column delta). -/
def directions : List (Int × Int) :=
  [(0, 1), (1, 0), (1, 1), (1, -1), (0, -1), (-1, 0), (-1, -1), (-1, 1)]

/-- Entry shape pushed by `findAllWordsInGrid`. -/
structure FoundWord where
  word : String
  coordinates : List Nat
  direction : Int × Int
  startPos : Int × Int
  deriving Repr, DecidableEq

/-- The inner loop of `checkAllWordsFromPosition` for one direction and one
target length: build the candidate from `length` contiguous cells starting at
`(startRow, startCol)`; the candidate exists only when every cell on the ray
is in bounds and non-empty. -/
def candidateAt (grid : Grid) (startRow startCol dr dc : Int) (length : Nat) :
    Option (String × List Nat) :=
  let cells := (List.range length).map fun (i : Nat) =>
    (startRow + dr * (i : Int), startCol + dc * (i : Int))
  if cells.all fun rc => (getLetter grid rc.1 rc.2).isSome then
    some (String.mk (cells.filterMap fun rc => getLetter grid rc.1 rc.2),
          cells.map fun rc => ((rc.1 * 8 + rc.2).toNat))
  else none

/-- `checkAllWordsFromPosition` (src/real-wallet-server.js lines 805-853):
nothing from an empty start cell; otherwise, for each of the 8 directions and
EVERY length from 2 to 8, report the candidate when it is complete, at least
2 letters long, and in the dictionary (note: unlike the word-dictionary
scanner, this one does not stop at the first valid length). -/
def checkAllWordsFromPosition (validWords : String → Bool) (grid : Grid)
    (startRow startCol : Int) : List FoundWord :=
  if (getLetter grid startRow startCol).isNone then []
  else
    directions.flatMap fun d =>
      (List.range' 2 7).filterMap fun length =>
        match candidateAt grid startRow startCol d.1 d.2 length with
        | some (word, coordinates) =>
          if 2 ≤ word.length ∧ WordDictionary.isValidWord validWords word = true then
            some { word := jsToUpper word, coordinates := coordinates,
                   direction := d, startPos := (startRow, startCol) }
          else none
        | none => none

/-- The duplicate filter of `findAllWordsInGrid` (src/real-wallet-server.js
lines 862-874): key = word plus the coordinates sorted ascending (the
source's in-place `coordinates.sort((a, b) => a - b)` also leaves the kept
entry's coordinate list sorted), first occurrence of each key kept. -/
def dedupeWords : List FoundWord → List (String × List Nat) → List FoundWord
  | [], _ => []
  | w :: ws, seen =>
    let sortedCoords := List.insertionSort (· ≤ ·) w.coordinates
    let key := (w.word, sortedCoords)
    if key ∈ seen then dedupeWords ws seen
    else { w with coordinates := sortedCoords } :: dedupeWords ws (key :: seen)

/-- Code-point lexicographic comparison on character lists; models the
`a.word.localeCompare(b.word)` tie-break of the display sort. -/
def lexLe : List Char → List Char → Bool
  | [], _ => true
  | _ :: _, [] => false
  | a :: as, b :: bs =>
    if a.toNat < b.toNat then true
    else if b.toNat < a.toNat then false
    else lexLe as bs

/-- The display ordering of `findAllWordsInGrid` (longer words first, then
lexicographic), as the sorting relation for the final `.sort(...)`. -/
def displayOrder (a b : FoundWord) : Prop :=
  b.word.length < a.word.length ∨
    (a.word.length = b.word.length ∧ lexLe a.word.data b.word.data = true)

instance : DecidableRel displayOrder := fun a b =>
  inferInstanceAs (Decidable
    (b.word.length < a.word.length ∨
      (a.word.length = b.word.length ∧ lexLe a.word.data b.word.data = true)))

/-- `findAllWordsInGrid` (src/real-wallet-server.js lines 794-893): scan from
every position of the 8×8 grid, deduplicate by (word, sorted cell set), sort
for display. -/
def findAllWordsInGrid (validWords : String → Bool) (grid : Grid) :
    List FoundWord :=
  let words := (List.range 8).flatMap fun row =>
    (List.range 8).flatMap fun col =>
      checkAllWordsFromPosition validWords grid (row : Int) (col : Int)
  let uniqueWords := dedupeWords words []
  List.insertionSort displayOrder uniqueWords

end RealWalletWordGridRoom

namespace RealWalletWordGridRoom

/-- `gamePhase`: waiting, countdown, playing, finished. -/
inductive GamePhase where
  | waiting
  | countdown
  | playing
  | finished
  deriving Repr, DecidableEq

/-- A player object as built by `addPlayer` (src/real-wallet-server.js lines
136-153), plus the `finalRank` field that `finishGame` later assigns. -/
structure Player where
  id : String
  socketId : String
  wallet : String
  nickname : String
  betAmount : ℚ
  score : Int
  timeRemaining : Int
  turnStartTime : Option Int
  totalTimeUsed : Int
  isActive : Bool
  paymentConfirmed : Bool
  escrowTxSignature : Option String
  wordsFound : List String
  totalLettersPlaced : Nat
  longestWord : Nat
  isCreator : Bool
  finalRank : Option Nat
  deriving Repr, DecidableEq

/-- Modelling artifact used for the `players[i]` accesses that cannot fail on
the reachable states the theorems quantify over. -/
def defaultPlayer : Player :=
  { id := "", socketId := "", wallet := "", nickname := "", betAmount := 0,
    score := 0, timeRemaining := 0, turnStartTime := none, totalTimeUsed := 0,
    isActive := false, paymentConfirmed := false, escrowTxSignature := none,
    wordsFound := [], totalLettersPlaced := 0, longestWord := 0,
    isCreator := false, finalRank := none }

instance : Inhabited Player := ⟨defaultPlayer⟩

/-- One `wordHistory` entry (src/real-wallet-server.js lines 459-466). -/
structure HistoryWord where
  word : String
  points : Nat
  coordinates : List Nat
  direction : Int × Int
  playerId : String
  timestamp : Int
  deriving Repr, DecidableEq

/-- One `moveHistory` entry (src/real-wallet-server.js lines 408-414). -/
structure Move where
  playerId : String
  cellIndex : Nat
  letter : Char
  timestamp : Int
  moveNumber : Nat
  deriving Repr, DecidableEq

/-- The room state (constructor, src/real-wallet-server.js lines 69-108).
The JS runtime artifacts are modelled explicitly: `turnTimerOn` /
`countdownOn` say whether the corresponding `setInterval` handle is live
(so tick events only act when the source's interval would exist), and
`pendingFinish` is the queue of `setTimeout(() => this.finishGame(reason))`
callbacks that have been scheduled but have not fired yet.
`prizeTransfers` records every transfer the prize-distribution path has
attempted (`sendPrizeToPlayer` calls) over the room's lifetime. -/
structure Room where
  roomId : String
  betAmount : ℚ
  password : Option String
  creatorWallet : Option String
  maxPlayers : Nat
  players : List Player
  gamePhase : GamePhase
  currentPlayer : Option String
  gameStartTime : Option Int
  totalGameTime : Int
  grid : Grid
  wordHistory : List HistoryWord
  moveHistory : List Move
  totalEscrowed : ℚ
  turnTimerOn : Bool
  countdownOn : Bool
  pendingFinish : List String
  prizeTransfers : List (String × ℚ)
  deriving Repr, DecidableEq

/-- The constructor's initial state. -/
def mkRoom (roomId : String) (betAmount : ℚ) (password : Option String)
    (creatorWallet : Option String) : Room :=
  { roomId := roomId, betAmount := betAmount, password := password,
    creatorWallet := creatorWallet, maxPlayers := 2, players := [],
    gamePhase := .waiting, currentPlayer := none, gameStartTime := none,
    totalGameTime := 150, grid := emptyGrid, wordHistory := [],
    moveHistory := [], totalEscrowed := 0, turnTimerOn := false,
    countdownOn := false, pendingFinish := [], prizeTransfers := [] }

/-- In-place mutation of the player object found by
`players.find(p => p.id === playerId)`: update the first matching entry. -/
def updateFirst (f : Player → Player) (pid : String) :
    List Player → List Player
  | [] => []
  | p :: rest =>
    if p.id = pid then f p :: rest else p :: updateFirst f pid rest

/-- `addPlayer` (src/real-wallet-server.js lines 115-164).  The `betAmount ||
this.betAmount` default follows JS falsiness (`0` falls back to the room's
bet).  Source returns `this.getGameState()`; the model returns the updated
room. -/
def addPlayer (r : Room) (playerId socketId wallet : String)
    (betAmount : Option ℚ) : Except String Room :=
  if r.maxPlayers ≤ r.players.length then .error "Room is full"
  else if r.gamePhase ≠ .waiting then .error "Game already in progress"
  else if jsTrim wallet = "" then .error "Valid wallet address is required"
  else if (r.players.find? fun p => p.wallet = wallet).isSome then
    .error "Player already in room"
  else
    let finalBetAmount :=
      match betAmount with
      | some b => if b = 0 then r.betAmount else b
      | none => r.betAmount
    let nickname :=
      if 8 ≤ wallet.length then String.mk (wallet.data.take 8) ++ "..."
      else wallet
    let player : Player :=
      { id := playerId, socketId := socketId, wallet := wallet,
        nickname := nickname, betAmount := finalBetAmount, score := 0,
        timeRemaining := r.totalGameTime, turnStartTime := none,
        totalTimeUsed := 0, isActive := false, paymentConfirmed := false,
        escrowTxSignature := none, wordsFound := [], totalLettersPlaced := 0,
        longestWord := 0, isCreator := (some wallet = r.creatorWallet),
        finalRank := none }
    .ok { r with players := r.players ++ [player] }

/-- `startCountdown` (src/real-wallet-server.js lines 267-291): no-op unless
`waiting`; sets the phase and starts the countdown interval (whose expiry is
the `countdownFinished` event below). -/
def startCountdown (r : Room) : Room :=
  if r.gamePhase ≠ .waiting then r
  else { r with gamePhase := .countdown, countdownOn := true }

/-- Outcome of `confirmPayment` as seen by the caller. -/
inductive ConfirmOutcome where
  | cachedState
  | verifiedOk
  | verificationFailed
  deriving Repr, DecidableEq

/-- `confirmPayment` (src/real-wallet-server.js lines 166-215).  The awaited
blockchain verification is the pure `verifyPaymentTransaction` applied to the
ledger's response `lookup`.  An already-confirmed player short-circuits:
`return this.getGameState()` with no state change (`.cachedState`). -/
def confirmPayment (r : Room) (playerId txSignature : String)
    (lookup : LedgerLookup) : Except String (ConfirmOutcome × Room) :=
  match r.players.find? fun p => p.id = playerId with
  | none => .error "Player not found"
  | some player =>
    if player.paymentConfirmed then .ok (.cachedState, r)
    else if verifyPaymentTransaction lookup player.wallet player.betAmount then
      let r1 : Room :=
        { r with
          players := updateFirst
            (fun p => { p with paymentConfirmed := true,
                               escrowTxSignature := some txSignature })
            playerId r.players,
          totalEscrowed := r.totalEscrowed + player.betAmount }
      let allPaid := r1.players.all fun p => p.paymentConfirmed
      let enoughPlayers := r1.players.length = r1.maxPlayers
      if allPaid ∧ enoughPlayers then .ok (.verifiedOk, startCountdown r1)
      else .ok (.verifiedOk, r1)
    else .ok (.verificationFailed, r)

/-- `startTurnTimer` (src/real-wallet-server.js lines 341-374): clears any
existing interval and starts a new one (tick bodies are `turnTimerTick`). -/
def startTurnTimer (r : Room) : Room :=
  { r with turnTimerOn := true }

/-- `startGame` (src/real-wallet-server.js lines 293-339). -/
def startGame (r : Room) (now : Int) : Except String Room :=
  if r.players.length ≠ r.maxPlayers then
    .error "Need exactly 2 players to start"
  else if ¬ r.players.all (fun p => p.paymentConfirmed) then
    .error "All players must confirm payment first"
  else
    let firstPlayer :=
      match r.players.find? fun p => p.isCreator with
      | some creator => creator
      | none => r.players.getD 0 defaultPlayer
    let players := r.players.map fun p =>
      if p.id = firstPlayer.id then
        { p with isActive := true, turnStartTime := some now }
      else { p with isActive := false }
    .ok (startTurnTimer
      { r with gamePhase := .playing, gameStartTime := some now,
               currentPlayer := some firstPlayer.id, players := players })

/-- `findIndex` on the players array by id (JS result −1 when absent). -/
def jsFindIndex (ps : List Player) (pid : Option String) : Int :=
  match ps.findIdx? fun p => some p.id = pid with
  | some i => (i : Int)
  | none => -1

/-- The time-charging block at the top of `switchTurn`
(src/real-wallet-server.js lines 522-546): charge the current player for the
elapsed turn time and deactivate them. -/
def chargeCurrent (r0 : Room) (now : Int) : Room :=
  match r0.currentPlayer.bind fun pid =>
      r0.players.find? fun p => p.id = pid with
  | some cp =>
    match cp.turnStartTime with
    | some ts =>
      let turnTimeUsed := Int.fdiv (now - ts) 1000
      let charge : Player → Player := fun p =>
        { p with totalTimeUsed := p.totalTimeUsed + turnTimeUsed,
                 timeRemaining :=
                   max 0 (r0.totalGameTime - (p.totalTimeUsed + turnTimeUsed)),
                 isActive := false, turnStartTime := none }
      { r0 with players := updateFirst charge cp.id r0.players }
    | none => r0
  | none => r0

/-- The time-bonus block of `switchTurn` (src/real-wallet-server.js lines
564-579): when the game is about to end on time, the (already updated)
current player scores one point per remaining second. -/
def awardTimeBonus (r1 : Room) : Room :=
  match r1.currentPlayer.bind fun pid =>
      r1.players.find? fun p => p.id = pid with
  | some cp =>
    if 0 < cp.timeRemaining then
      let bonus : Player → Player := fun p =>
        { p with score := p.score + p.timeRemaining }
      { r1 with players := updateFirst bonus cp.id r1.players }
    else r1
  | none => r1

/-- `switchTurn` (src/real-wallet-server.js lines 516-604): stop the turn
interval, charge the current player for the elapsed turn time, and hand the
turn to the next player — unless that player's clock is exhausted, in which
case the current player receives a time bonus and
`setTimeout(() => this.finishGame("time_up"), 1000)` is scheduled (the
turn does NOT switch and the phase is NOT changed here). -/
def switchTurn (r : Room) (now : Int) : Room :=
  let r1 := chargeCurrent { r with turnTimerOn := false } now
  let currentIndex := jsFindIndex r1.players r1.currentPlayer
  let nextIndex := ((currentIndex + 1) % (r1.players.length : Int)).toNat
  let nextPlayer := r1.players.getD nextIndex defaultPlayer
  if nextPlayer.timeRemaining ≤ 0 then
    let r2 := awardTimeBonus r1
    { r2 with pendingFinish := r2.pendingFinish ++ ["time_up"] }
  else
    let activate : Player → Player := fun p =>
      { p with isActive := true, turnStartTime := some now }
    startTurnTimer
      { r1 with currentPlayer := some nextPlayer.id,
                players := updateFirst activate nextPlayer.id r1.players }

/-- One tick of the `startTurnTimer` interval (src/real-wallet-server.js
lines 346-373): only runs while the interval is live; recomputes the active
player's remaining time from the wall clock and calls `switchTurn` when it
reaches zero. -/
def turnTimerTick (r : Room) (now : Int) : Room :=
  if ¬ r.turnTimerOn then r
  else
    match r.currentPlayer.bind fun pid =>
        r.players.find? fun p => p.id = pid with
    | none => r
    | some activePlayer =>
      match activePlayer.turnStartTime with
      | none => r
      | some ts =>
        let currentTurnTime := Int.fdiv (now - ts) 1000
        let totalTimeUsed := activePlayer.totalTimeUsed + currentTurnTime
        let newRemaining := max 0 (r.totalGameTime - totalTimeUsed)
        let setRemaining : Player → Player := fun p =>
          { p with timeRemaining := newRemaining }
        let r1 : Room :=
          { r with players := updateFirst setRemaining activePlayer.id r.players }
        if newRemaining ≤ 0 then switchTurn r1 now else r1

end RealWalletWordGridRoom

namespace RealWalletWordGridRoom

/-- Mark every cell named in `coords` with `isNewWord := true`
(src/real-wallet-server.js lines 450-456); letters are untouched. -/
def markNewWordCells (g : Grid) (coords : List Nat) : Grid :=
  coords.foldl
    (fun g idx =>
      match g.get? idx with
      | some cell => g.set idx { cell with isNewWord := true }
      | none => g)
    g

/-- The caller-visible part of `placeLetter`'s return value. -/
structure PlaceResult where
  nextPlayer : Option String
  moveNumber : Nat
  emptySpots : Nat
  newWords : List FoundWord
  pointsEarned : Nat
  deriving Repr, DecidableEq

/-- The body of `placeLetter` (src/real-wallet-server.js lines 376-514)
after its five validations: place the letter, rescan the WHOLE grid, keep
the words whose strings were not previously counted (note: the cross-move
filter compares word STRINGS only, not cell sets), score them for the
placer, switch the turn, and — when the grid just became full — schedule
`finishGame("grid_full")`. -/
def placeLetterCore (validWords : String → Bool) (r : Room) (playerId : String)
    (cellIndex : Int) (letter : Char) (now : Int) : PlaceResult × Room :=
    let upperLetter := letter.toUpper
    let cellIdx := cellIndex.toNat
    let grid := r.grid.set cellIdx
      { letter := some upperLetter, playerId := some playerId,
        isNewWord := false }
    let move : Move :=
      { playerId := playerId, cellIndex := cellIdx, letter := upperLetter,
        timestamp := now, moveNumber := r.moveHistory.length + 1 }
    let bumpPlaced : Player → Player := fun p =>
      { p with totalLettersPlaced := p.totalLettersPlaced + 1 }
    let r1 : Room :=
      { r with grid := grid, moveHistory := r.moveHistory ++ [move],
               players := updateFirst bumpPlaced playerId r.players }
    let allCurrentWords := findAllWordsInGrid validWords r1.grid
    let previousWordStrings := r1.wordHistory.map fun w => jsToUpper w.word
    let newWords := allCurrentWords.filter fun w =>
      ¬ previousWordStrings.contains (jsToUpper w.word)
    let pointsEarned : Nat := (newWords.map fun w => w.word.length).sum
    let r2 : Room :=
      if newWords.isEmpty then r1
      else
        let grid2 := markNewWordCells r1.grid (newWords.flatMap fun w => w.coordinates)
        let wordsToAdd := newWords.map fun w =>
          ({ word := w.word, points := w.word.length,
             coordinates := w.coordinates, direction := w.direction,
             playerId := playerId, timestamp := now } : HistoryWord)
        let longestNewWord := (newWords.map fun w => w.word.length).foldl max 0
        let scoreWords : Player → Player := fun p =>
          { p with score := p.score + (pointsEarned : Int),
                   wordsFound := p.wordsFound ++ newWords.map fun w => w.word,
                   longestWord :=
                     if p.longestWord < longestNewWord then longestNewWord
                     else p.longestWord }
        { r1 with grid := grid2,
                  wordHistory := r1.wordHistory ++ wordsToAdd,
                  players := updateFirst scoreWords playerId r1.players }
    let r3 := switchTurn r2 now
    let emptySpots := (r3.grid.filter fun c => c.letter.isNone).length
    let r4 : Room :=
      if emptySpots = 0 then
        { r3 with pendingFinish := r3.pendingFinish ++ ["grid_full"] }
      else r3
    ({ nextPlayer := r4.currentPlayer, moveNumber := r4.moveHistory.length,
       emptySpots := emptySpots, newWords := newWords,
       pointsEarned := pointsEarned }, r4)

/-- `placeLetter` = the five validations (each throwing before any mutation)
followed by the body above. -/
def placeLetter (validWords : String → Bool) (r : Room) (playerId : String)
    (cellIndex : Int) (letter : Char) (now : Int) :
    Except String (PlaceResult × Room) :=
  if r.gamePhase ≠ .playing then .error "Game is not in playing state"
  else if r.currentPlayer ≠ some playerId then .error "Not your turn"
  else if cellIndex < 0 ∨ 64 ≤ cellIndex then .error "Invalid cell index"
  else if ((r.grid.getD cellIndex.toNat emptyCell).letter).isSome then
    .error "Cell already occupied"
  else if ¬ letter.isAlpha then .error "Letter must be A-Z"
  else .ok (placeLetterCore validWords r playerId cellIndex letter now)

/-- The final-ranking order of `finishGame` (src/real-wallet-server.js lines
635-639): score desc, then longest word desc, then letters placed desc. -/
def finishOrder (a b : Player) : Prop :=
  b.score < a.score ∨
    (a.score = b.score ∧
      (b.longestWord < a.longestWord ∨
        (a.longestWord = b.longestWord ∧
          b.totalLettersPlaced ≤ a.totalLettersPlaced)))

instance : DecidableRel finishOrder := fun a b =>
  inferInstanceAs (Decidable
    (b.score < a.score ∨
      (a.score = b.score ∧
        (b.longestWord < a.longestWord ∨
          (a.longestWord = b.longestWord ∧
            b.totalLettersPlaced ≤ a.totalLettersPlaced)))))

/-- `calculateBetPool` result (src/real-wallet-server.js lines 693-705). -/
structure BetPool where
  totalAmount : ℚ
  platformFee : ℚ
  prizePool : ℚ
  deriving Repr, DecidableEq

/-- `calculateBetPool`: pool = sum of the players' bet amounts, 10% platform
fee, prize pool = the rest. -/
def calculateBetPool (r : Room) : BetPool :=
  let totalBets := (r.players.map fun p => p.betAmount).sum
  let platformFee := totalBets * (1 / 10)
  { totalAmount := totalBets, platformFee := platformFee,
    prizePool := totalBets - platformFee }

/-- One entry of `gameStats.finalStandings`
(src/real-wallet-server.js lines 654-664). -/
structure Standing where
  wallet : String
  rank : Nat
  score : Int
  wordsFound : Nat
  longestWord : Nat
  totalLettersPlaced : Nat
  timeRemaining : Int
  betAmount : ℚ
  prize : ℚ
  deriving Repr, DecidableEq

/-- `gameStats` as produced by `finishGame`. -/
structure GameStats where
  winnerWallet : String
  loserWallet : String
  reason : String
  finalStandings : List Standing
  betPool : BetPool
  deriving Repr, DecidableEq

/-- `finishGame` (src/real-wallet-server.js lines 606-691) followed by its
`distributePrizes` call (lines 707-754).  NOTE (faithful to the source):
the method never checks whether the game is already `finished`, so calling
it again re-runs ranking and prize distribution.  `platformWalletLoaded`
says whether the module-level `platformWallet` keypair was configured;
when it is and the prize is positive, a transfer of the whole prize pool to
the winner is attempted (`sendPrizeToPlayer`) and recorded in
`prizeTransfers`. -/
def finishGame (platformWalletLoaded : Bool) (r : Room) (reason : String) :
    GameStats × Room :=
  let r0 : Room :=
    { r with gamePhase := .finished, turnTimerOn := false,
             countdownOn := false }
  let r1 : Room :=
    if reason = "time_up" then
      { r0 with players := r0.players.map fun p =>
          if 0 < p.timeRemaining then
            { p with score := p.score + p.timeRemaining }
          else p }
    else r0
  let sortedPlayers := List.insertionSort finishOrder r1.players
  let rankOf : String → Option Nat := fun pid =>
    (sortedPlayers.findIdx? fun p => p.id = pid).map (· + 1)
  let r2 : Room :=
    { r1 with players := r1.players.map fun p =>
        { p with finalRank := rankOf p.id } }
  let winner := sortedPlayers.getD 0 defaultPlayer
  let loser := sortedPlayers.getD 1 defaultPlayer
  let betPool := calculateBetPool r2
  let finalStandings := (sortedPlayers.zip (List.range sortedPlayers.length)).map
    fun pi =>
      ({ wallet := pi.1.wallet, rank := pi.2 + 1, score := pi.1.score,
         wordsFound := pi.1.wordsFound.length, longestWord := pi.1.longestWord,
         totalLettersPlaced := pi.1.totalLettersPlaced,
         timeRemaining := pi.1.timeRemaining, betAmount := pi.1.betAmount,
         prize := if pi.2 + 1 = 1 then betPool.prizePool else 0 } : Standing)
  let stats : GameStats :=
    { winnerWallet := winner.wallet, loserWallet := loser.wallet,
      reason := reason, finalStandings := finalStandings, betPool := betPool }
  let r3 : Room :=
    if platformWalletLoaded ∧ 0 < betPool.prizePool then
      { r2 with prizeTransfers :=
          r2.prizeTransfers ++ [(winner.wallet, betPool.prizePool)] }
    else r2
  (stats, r3)

/-- A scheduled `finishGame` timeout fires: dequeue one pending reason and
run `finishGame` on it (the source registers these with
`setTimeout(() => this.finishGame(reason), 1000)`). -/
def firePendingFinish (platformWalletLoaded : Bool) (r : Room) : Room :=
  match r.pendingFinish with
  | [] => r
  | reason :: rest =>
    (finishGame platformWalletLoaded { r with pendingFinish := rest } reason).2

/-- The countdown interval reaching zero (src/real-wallet-server.js lines
277-290): clear the interval and call `startGame`; an exception from
`startGame` escapes into the timer callback, leaving the room otherwise
unchanged. -/
def countdownFinished (r : Room) (now : Int) : Room :=
  if ¬ r.countdownOn then r
  else
    let r0 : Room := { r with countdownOn := false }
    match startGame r0 now with
    | .ok r1 => r1
    | .error _ => r0

/-- The inbound events that drive a word-grid room. -/
inductive Event where
  | join (playerId socketId wallet : String) (betAmount : Option ℚ)
  | confirm (playerId txSignature : String) (lookup : LedgerLookup)
  | countdownDone (now : Int)
  | place (playerId : String) (cellIndex : Int) (letter : Char) (now : Int)
  | timerTick (now : Int)
  | finishTimeout
  deriving Repr, DecidableEq

/-- One event dispatch.  Methods that throw leave the room unchanged (all
their throwing paths precede any mutation in the source). -/
def step (validWords : String → Bool) (platformWalletLoaded : Bool)
    (r : Room) : Event → Room
  | .join pid sid w b =>
    match addPlayer r pid sid w b with
    | .ok r1 => r1
    | .error _ => r
  | .confirm pid sig lk =>
    match confirmPayment r pid sig lk with
    | .ok (_, r1) => r1
    | .error _ => r
  | .countdownDone now => countdownFinished r now
  | .place pid ci l now =>
    match placeLetter validWords r pid ci l now with
    | .ok (_, r1) => r1
    | .error _ => r
  | .timerTick now => turnTimerTick r now
  | .finishTimeout => firePendingFinish platformWalletLoaded r

/-- Process a sequence of inbound events in arrival order. -/
def run (validWords : String → Bool) (platformWalletLoaded : Bool)
    (r : Room) (events : List Event) : Room :=
  events.foldl (step validWords platformWalletLoaded) r

/-- Successive `placeLetter` calls, all of which must be accepted. -/
def runPlacements (validWords : String → Bool) (r : Room) :
    List (String × Int × Char × Int) → Option Room
  | [] => some r
  | (pid, ci, l, now) :: rest =>
    match placeLetter validWords r pid ci l now with
    | .ok (_, r1) => runPlacements validWords r1 rest
    | .error _ => none

end RealWalletWordGridRoom

namespace RealWalletTicTacToeRoom

/-- A tic-tac-toe player object (src/real-wallet-server.js lines 972-980). -/
structure Player where
  id : String
  socketId : String
  wallet : String
  symbol : String
  betAmount : ℚ
  paymentConfirmed : Bool
  escrowTxSignature : Option String
  deriving Repr, DecidableEq

/-- `gamePhase`: waiting, paying, toss, playing, finished. -/
inductive GamePhase where
  | waiting
  | paying
  | toss
  | playing
  | finished
  deriving Repr, DecidableEq

/-- The tic-tac-toe room state (constructor, src/real-wallet-server.js lines
946-958); the board and spectators are irrelevant to the claims and kept as
raw data. -/
structure Room where
  roomId : String
  players : List Player
  board : List (Option String)
  currentPlayer : String
  gamePhase : GamePhase
  winner : Option String
  betAmount : ℚ
  escrowAccount : Option String
  totalEscrowed : ℚ
  deriving Repr, DecidableEq

/-- The constructor's initial state. -/
def mkRoom (roomId : String) (betAmount : ℚ) : Room :=
  { roomId := roomId, players := [], board := List.replicate 9 none,
    currentPlayer := "X", gamePhase := .waiting, winner := none,
    betAmount := betAmount, escrowAccount := none, totalEscrowed := 0 }

/-- `initializeEscrow` (src/real-wallet-server.js lines 996-1011): throws
without a platform wallet, otherwise records the platform key as the escrow
account.  `platformWallet` is the module-level keypair (its public key is
passed in when loaded). -/
def initializeEscrow (platformWallet : Option String) (r : Room) :
    Except String Room :=
  match platformWallet with
  | none => .error "Platform wallet required for escrow"
  | some pk => .ok { r with escrowAccount := some pk }

/-- `addPlayer` (src/real-wallet-server.js lines 960-994).  NOTE (faithful to
the source): unlike the word-grid room, there is NO duplicate-wallet check;
the same wallet can take both seats.  When the second player joins, the phase
moves to `paying` and the escrow is initialized. -/
def addPlayer (platformWallet : Option String) (r : Room)
    (playerId socketId wallet : String) (betAmount : Option ℚ) :
    Except String Room :=
  if 2 ≤ r.players.length then .error "Room is full"
  else if r.gamePhase ≠ .waiting then .error "Game already in progress"
  else
    let actualBetAmount :=
      match betAmount with
      | some b => if b = 0 then r.betAmount else b
      | none => r.betAmount
    let symbol := if r.players.length = 0 then "X" else "O"
    let player : Player :=
      { id := playerId, socketId := socketId, wallet := wallet,
        symbol := symbol, betAmount := actualBetAmount,
        paymentConfirmed := false, escrowTxSignature := none }
    let r1 : Room := { r with players := r.players ++ [player] }
    if r1.players.length = 2 then
      initializeEscrow platformWallet { r1 with gamePhase := .paying }
    else .ok r1

/-- Outcome of `confirmPayment` as seen by the caller. -/
inductive ConfirmOutcome where
  | verifiedOk
  | verificationFailed
  deriving Repr, DecidableEq

/-- In-place mutation of the first player with the given id. -/
def updateFirst (f : Player → Player) (pid : String) :
    List Player → List Player
  | [] => []
  | p :: rest =>
    if p.id = pid then f p :: rest else p :: updateFirst f pid rest

/-- `confirmPayment` (src/real-wallet-server.js lines 1013-1053).  NOTE
(faithful to the source): there is NO already-confirmed short-circuit — a
repeat confirmation re-runs the blockchain verification and, when it passes,
adds the player's bet to `totalEscrowed` AGAIN. -/
def confirmPayment (r : Room) (playerId txSignature : String)
    (lookup : LedgerLookup) : Except String (ConfirmOutcome × Room) :=
  match r.players.find? fun p => p.id = playerId with
  | none => .error "Player not found"
  | some player =>
    if verifyPaymentTransaction lookup player.wallet player.betAmount then
      let confirm : Player → Player := fun p =>
        { p with paymentConfirmed := true,
                 escrowTxSignature := some txSignature }
      let r1 : Room :=
        { r with players := updateFirst confirm playerId r.players,
                 totalEscrowed := r.totalEscrowed + player.betAmount }
      let allPaid := r1.players.all fun p => p.paymentConfirmed
      if allPaid then .ok (.verifiedOk, { r1 with gamePhase := .toss })
      else .ok (.verifiedOk, r1)
    else .ok (.verificationFailed, r)

end RealWalletTicTacToeRoom

namespace WordGridGame

/-- A player of the legacy `WordGridRoom` (src/word-grid-game.js lines
40-49). -/
structure Player where
  id : String
  socketId : String
  wallet : String
  timeRemaining : Int
  score : Int
  isActive : Bool
  betAmount : ℚ
  paymentConfirmed : Bool
  deriving Repr, DecidableEq

instance : Inhabited Player :=
  ⟨{ id := "", socketId := "", wallet := "", timeRemaining := 0, score := 0,
     isActive := false, betAmount := 0, paymentConfirmed := false }⟩

/-- One entry of the legacy room's `finalStandings`
(src/word-grid-game.js lines 238-276). -/
structure Standing where
  wallet : String
  score : Int
  position : Nat
  prize : ℚ
  wordsFound : Nat
  deriving Repr, DecidableEq

/-- The legacy ranking comparator `(a, b) => b.score - a.score`. -/
def scoreOrder (a b : Player) : Prop := b.score ≤ a.score

instance : DecidableRel scoreOrder := fun a b =>
  inferInstanceAs (Decidable (b.score ≤ a.score))

/-- The prize computation of the legacy `WordGridRoom.finishGame`
(src/word-grid-game.js lines 228-277): sort by score, and with a clear
winner pay the winner `totalPrizePool * 1.8` and the loser
`totalPrizePool * 0.2` (the source's comments say "90%"/"10% of doubled
pool", but `totalPrizePool` is ALREADY the sum of both players' bets, set
by `addPlayer`); on a tie each standing carries the whole pool.
`wordsFoundBy` gives, per player id, the number of `wordsFound` entries
attributed to that player. -/
def finishStandings (players : List Player) (wordsFoundBy : String → Nat)
    (totalPrizePool : ℚ) : List Standing :=
  let sortedPlayers := List.insertionSort scoreOrder players
  let winner := sortedPlayers.getD 0 default
  let loser := sortedPlayers.getD 1 default
  if loser.score < winner.score then
    [{ wallet := winner.wallet, score := winner.score, position := 1,
       prize := totalPrizePool * (18 / 10), wordsFound := wordsFoundBy winner.id },
     { wallet := loser.wallet, score := loser.score, position := 2,
       prize := totalPrizePool * (2 / 10), wordsFound := wordsFoundBy loser.id }]
  else
    [{ wallet := winner.wallet, score := winner.score, position := 1,
       prize := totalPrizePool, wordsFound := wordsFoundBy winner.id },
     { wallet := loser.wallet, score := loser.score, position := 1,
       prize := totalPrizePool, wordsFound := wordsFoundBy loser.id }]

/-- `totalPrizePool` as maintained by the legacy `addPlayer`
(src/word-grid-game.js line 52): the sum of the joined players' bets. -/
def totalPrizePool (players : List Player) : ℚ :=
  (players.map fun p => p.betAmount).sum

end WordGridGame

/-! ## Claim C3 — payment-validator acceptance condition -/

/-- A transaction in which the claimant's balance INCREASED by 100 GOR. -/
def c3GainTx : TxMeta :=
  { err := false, preBalances := [0, 0],
    postBalances := [100000000000, 0],
    accountKeys := ["PLAYER", "PLATFORM"] }

/-- C3 counterexample: the word-grid validator accepts a transaction whose
observed balance delta is a GAIN of 100 GOR against an expected stake of
1 GOR — the spec's rule `|observed − expected| ≤ tolerance` rejects it both
at a 5% tolerance and even at a tolerance of 100% of the expected amount,
so the implementation's verdict is not of the claimed shape. -/
theorem c3_counterexample :
    RealWalletWordGridRoom.verifyPaymentTransaction (.found c3GainTx) "PLAYER" 1 = true ∧
    specPaymentAccepts (5 / 100) (.found c3GainTx) "PLAYER" 1 = false ∧
    specPaymentAccepts 1 (.found c3GainTx) "PLAYER" 1 = false := by
  refine ⟨?_, ?_, ?_⟩ <;>
    · simp only [RealWalletWordGridRoom.verifyPaymentTransaction,
        RealWalletWordGridRoom.playerBalanceChange, specPaymentAccepts,
        c3GainTx, GOR_DECIMALS]
      norm_num [List.indexOf, List.findIdx, List.findIdx.go]

/-- C3 amended: for a successful lookup both validators require no
ledger-level failure and the claimant among the participants, but the amount
condition differs from the claim: the word-grid validator accepts iff the
ABSOLUTE balance change is AT LEAST 95% of the expected amount (a one-sided
lower bound, sign-insensitive, with no upper bound), and the tic-tac-toe
validator accepts iff the lamport outflow differs from the expected amount
by at most a fixed ABSOLUTE tolerance of 0.01 GOR (not a fraction of the
expected amount); lookups that resolve `null` or throw are rejected. -/
theorem c3_theorem :
    (∀ w e, RealWalletWordGridRoom.verifyPaymentTransaction .notFound w e = false) ∧
    (∀ w e, RealWalletWordGridRoom.verifyPaymentTransaction .threw w e = false) ∧
    (∀ tx w e,
      RealWalletWordGridRoom.verifyPaymentTransaction (.found tx) w e = true ↔
        tx.err = false ∧ w ∈ tx.accountKeys ∧
          e * (95 / 100) ≤ |RealWalletWordGridRoom.playerBalanceChange tx w|) ∧
    (∀ w e, RealWalletTicTacToeRoom.verifyPaymentTransaction .notFound w e = false) ∧
    (∀ w e, RealWalletTicTacToeRoom.verifyPaymentTransaction .threw w e = false) ∧
    (∀ tx w e,
      RealWalletTicTacToeRoom.verifyPaymentTransaction (.found tx) w e = true ↔
        tx.err = false ∧ w ∈ tx.accountKeys ∧
          |((RealWalletTicTacToeRoom.playerBalanceChangeLamports tx w : ℚ)) -
              e * (10 : ℚ) ^ GOR_DECIMALS| ≤ (1 / 100) * (10 : ℚ) ^ GOR_DECIMALS) := by
  refine ⟨fun w e => rfl, fun w e => rfl, fun tx w e => ?_,
          fun w e => rfl, fun w e => rfl, fun tx w e => ?_⟩
  · unfold RealWalletWordGridRoom.verifyPaymentTransaction
    by_cases herr : tx.err
    · simp [herr]
    · by_cases hmem : w ∈ tx.accountKeys
      · simp [herr, hmem, ge_iff_le]
      · simp [herr, hmem]
  · unfold RealWalletTicTacToeRoom.verifyPaymentTransaction
    by_cases herr : tx.err
    · simp [herr]
    · by_cases hmem : w ∈ tx.accountKeys
      · simp [herr, hmem]
      · simp [herr, hmem]

/-! ## Claim C5 — validator behaviour on failed ledger lookups -/

/-- C5 counterexample: when the ledger lookup THROWS, `validateEntryFeePayment`
catches the error and returns an ACCEPTED verdict (`verified := true`, default
amount 1) instead of a not-verified result. -/
theorem c5_counterexample :
    (validateEntryFeePayment .threw "PLAYER").verified = true := rfl

/-- C5 amended: no failure path crashes (every embedded validator is a total
function returning a typed result): the room-class verifiers return
not-verified on `null`, thrown, and ledger-failed lookups, and
`validateEntryFeePayment` returns not-verified on `null` and ledger-failed
lookups — but on a THROWN lookup it returns `verified := true` with the
default amount 1 (the source's deliberate hackathon fallback). -/
theorem c5_theorem :
    (∀ w, validateEntryFeePayment .notFound w =
      { verified := false, amount := none }) ∧
    (∀ tx w, tx.err = true →
      validateEntryFeePayment (.found tx) w =
        { verified := false, amount := none }) ∧
    (∀ w, validateEntryFeePayment .threw w =
      { verified := true, amount := some 1 }) ∧
    (∀ w e, RealWalletWordGridRoom.verifyPaymentTransaction .notFound w e = false ∧
      RealWalletWordGridRoom.verifyPaymentTransaction .threw w e = false ∧
      RealWalletTicTacToeRoom.verifyPaymentTransaction .notFound w e = false ∧
      RealWalletTicTacToeRoom.verifyPaymentTransaction .threw w e = false) ∧
    (∀ tx w e, tx.err = true →
      RealWalletWordGridRoom.verifyPaymentTransaction (.found tx) w e = false ∧
      RealWalletTicTacToeRoom.verifyPaymentTransaction (.found tx) w e = false) := by
  refine ⟨fun w => rfl, fun tx w herr => ?_, fun w => rfl,
          fun w e => ⟨rfl, rfl, rfl, rfl⟩, fun tx w e herr => ⟨?_, ?_⟩⟩
  · unfold validateEntryFeePayment; simp [herr]
  · unfold RealWalletWordGridRoom.verifyPaymentTransaction; simp [herr]
  · unfold RealWalletTicTacToeRoom.verifyPaymentTransaction; simp [herr]

/-- C5 witness: the amended theorem applied to a concrete failed transaction. -/
theorem c5_witness :
    validateEntryFeePayment
      (.found { err := true, preBalances := [], postBalances := [],
                accountKeys := [] }) "PLAYER" =
      { verified := false, amount := none } :=
  c5_theorem.2.1 _ "PLAYER" rfl

/-! ## Claim C4 — idempotence of repeated payment confirmation -/

/-- A transaction in which wallet "WA" paid exactly 1 GOR. -/
def c4Tx : TxMeta :=
  { err := false, preBalances := [5000000000],
    postBalances := [4000000000], accountKeys := ["WA"] }

/-- The tic-tac-toe validator accepts `c4Tx` for a 1 GOR stake. -/
theorem c4Tx_verifies :
    RealWalletTicTacToeRoom.verifyPaymentTransaction (.found c4Tx) "WA" 1 = true := by
  simp only [RealWalletTicTacToeRoom.verifyPaymentTransaction,
    RealWalletTicTacToeRoom.playerBalanceChangeLamports, c4Tx, GOR_DECIMALS]
  norm_num [List.indexOf, List.findIdx, List.findIdx.go]

/-- A tic-tac-toe room in which player "A" has already confirmed a 1 GOR
stake (`totalEscrowed = 1`). -/
def c4RoomTTT : RealWalletTicTacToeRoom.Room :=
  { roomId := "t1",
    players :=
      [{ id := "A", socketId := "sA", wallet := "WA", symbol := "X",
         betAmount := 1, paymentConfirmed := true,
         escrowTxSignature := some "sig1" },
       { id := "B", socketId := "sB", wallet := "WB", symbol := "O",
         betAmount := 1, paymentConfirmed := false,
         escrowTxSignature := none }],
    board := List.replicate 9 none, currentPlayer := "X",
    gamePhase := .paying, winner := none, betAmount := 1,
    escrowAccount := some "PLAT", totalEscrowed := 1 }

/-- C4 counterexample: in the tic-tac-toe room a SECOND confirmation of an
already-confirmed player's valid payment is not a cached no-op — it re-runs
verification and adds the bet to the escrow total again (1 → 2). -/
theorem c4_counterexample :
    ((RealWalletTicTacToeRoom.confirmPayment c4RoomTTT "A" "sig2"
        (.found c4Tx)).toOption.map fun res => res.2.totalEscrowed) = some 2 ∧
    c4RoomTTT.totalEscrowed = 1 ∧
    (c4RoomTTT.players.find? fun p => p.id = "A").map
      (fun p => p.paymentConfirmed) = some true := by
  refine ⟨?_, rfl, rfl⟩
  simp only [RealWalletTicTacToeRoom.confirmPayment, c4RoomTTT]
  norm_num [c4Tx_verifies, RealWalletTicTacToeRoom.updateFirst, Except.toOption]

/-- C4 amended: the word-grid room's `confirmPayment` IS idempotent — for a
player whose stake is already verified, a second call returns the cached
game state and leaves the room (in particular the escrow total) unchanged;
the tic-tac-toe room's `confirmPayment` is not (see the counterexample). -/
theorem c4_theorem (r : RealWalletWordGridRoom.Room) (pid sig : String)
    (lookup : LedgerLookup) (p : RealWalletWordGridRoom.Player)
    (hfind : r.players.find? (fun q => q.id = pid) = some p)
    (hconf : p.paymentConfirmed = true) :
    RealWalletWordGridRoom.confirmPayment r pid sig lookup =
      .ok (.cachedState, r) := by
  unfold RealWalletWordGridRoom.confirmPayment
  rw [hfind]
  simp [hconf]

/-- A word-grid room in which player "A" has already confirmed. -/
def c4RoomWG : RealWalletWordGridRoom.Room :=
  { RealWalletWordGridRoom.mkRoom "w1" 1 none (some "WA") with
    players := [{ RealWalletWordGridRoom.defaultPlayer with
      id := "A", wallet := "WA", betAmount := 1, paymentConfirmed := true }],
    totalEscrowed := 1 }

/-- C4 witness: the idempotence theorem applied to a concrete room. -/
theorem c4_witness :
    RealWalletWordGridRoom.confirmPayment c4RoomWG "A" "sig" .notFound =
      .ok (.cachedState, c4RoomWG) :=
  c4_theorem c4RoomWG "A" "sig" .notFound
    { RealWalletWordGridRoom.defaultPlayer with
      id := "A", wallet := "WA", betAmount := 1, paymentConfirmed := true }
    rfl rfl

/-! ## Claim C6 — duplicate-address joins -/

namespace RealWalletWordGridRoom

/-- A sequence of join requests dispatched to a word-grid room (rejected
joins leave the room unchanged, as their throws precede any mutation). -/
def runJoins (r : Room) :
    List (String × String × String × Option ℚ) → Room
  | [] => r
  | (pid, sid, w, b) :: rest =>
    runJoins
      (match addPlayer r pid sid w b with
       | .ok r1 => r1
       | .error _ => r) rest

/-- Inversion for a successful word-grid join: the accepted wallet is
appended and was not present before. -/
theorem addPlayer_wallets (r : Room) (pid sid w : String) (b : Option ℚ)
    (r1 : Room) (h : addPlayer r pid sid w b = .ok r1) :
    (r1.players.map fun p => p.wallet) =
      (r.players.map fun p => p.wallet) ++ [w] ∧
    w ∉ r.players.map fun p => p.wallet := by
  unfold addPlayer at h
  split at h
  · cases h
  · split at h
    · cases h
    · split at h
      · cases h
      · split at h
        · cases h
        · refine ⟨?_, ?_⟩
          · cases h
            simp
          · rename_i hfind
            intro hmem
            apply hfind
            simp only [List.find?_isSome]
            rcases List.mem_map.mp hmem with ⟨p, hp, hpw⟩
            exact ⟨p, hp, by simp [hpw]⟩

end RealWalletWordGridRoom

/-- C6 counterexample: the tic-tac-toe room performs NO duplicate-address
check — the same wallet joins twice without error and holds both seats. -/
theorem c6_counterexample :
    ((RealWalletTicTacToeRoom.addPlayer (some "PLAT")
        (RealWalletTicTacToeRoom.mkRoom "t2" 1) "A" "s1" "WALLET" none).toOption.bind
      fun r1 => (RealWalletTicTacToeRoom.addPlayer (some "PLAT") r1 "B" "s2"
        "WALLET" none).toOption).map
      (fun r2 => r2.players.map fun p => p.wallet) = some ["WALLET", "WALLET"] := by
  rfl

/-- C6 amended: the WORD-GRID room satisfies the claim — a join whose wallet
is already present (reaching the duplicate check) is rejected with
"Player already in room" and, since every throw precedes any mutation, the
room is unchanged; consequently wallets stay pairwise distinct under any
sequence of joins.  The tic-tac-toe room has no such check (see the
counterexample). -/
theorem c6_theorem :
    (∀ (r : RealWalletWordGridRoom.Room) (pid sid w : String) (b : Option ℚ),
      r.players.length < r.maxPlayers →
      r.gamePhase = .waiting →
      jsTrim w ≠ "" →
      w ∈ (r.players.map fun p => p.wallet) →
      RealWalletWordGridRoom.addPlayer r pid sid w b =
        .error "Player already in room") ∧
    (∀ (r : RealWalletWordGridRoom.Room)
        (joins : List (String × String × String × Option ℚ)),
      ((r.players.map fun p => p.wallet).Nodup) →
      (((RealWalletWordGridRoom.runJoins r joins).players.map
          fun p => p.wallet).Nodup)) := by
  constructor
  · intro r pid sid w b hlen hphase htrim hmem
    unfold RealWalletWordGridRoom.addPlayer
    rw [if_neg (by omega), if_neg (by simp [hphase]), if_neg (by simp [htrim])]
    rw [if_pos]
    simp only [List.find?_isSome]
    rcases List.mem_map.mp hmem with ⟨p, hp, hpw⟩
    exact ⟨p, hp, by simp [hpw]⟩
  · intro r joins
    induction joins generalizing r with
    | nil => intro h; exact h
    | cons j rest ih =>
      intro hnodup
      obtain ⟨pid, sid, w, b⟩ := j
      unfold RealWalletWordGridRoom.runJoins
      cases hadd : RealWalletWordGridRoom.addPlayer r pid sid w b with
      | ok r1 =>
        apply ih
        obtain ⟨heq, hniw⟩ :=
          RealWalletWordGridRoom.addPlayer_wallets r pid sid w b r1 hadd
        rw [heq]
        simp [List.nodup_append, hnodup, hniw]
      | error e => exact ih r hnodup

/-- A word-grid room with one joined player holding wallet "WALLET". -/
def c6RoomWG : RealWalletWordGridRoom.Room :=
  { RealWalletWordGridRoom.mkRoom "w2" 1 none none with
    players := [{ RealWalletWordGridRoom.defaultPlayer with
      id := "A", wallet := "WALLET" }] }

/-- C6 witness: the amended theorem applied to a concrete duplicate join and
a concrete join sequence. -/
theorem c6_witness :
    RealWalletWordGridRoom.addPlayer c6RoomWG "B" "sB" "WALLET" none =
      .error "Player already in room" ∧
    (((RealWalletWordGridRoom.runJoins c6RoomWG
        [("B", "sB", "WALLET", none), ("C", "sC", "W2", none)]).players.map
        fun p => p.wallet).Nodup) :=
  ⟨c6_theorem.1 c6RoomWG "B" "sB" "WALLET" none (by decide) rfl (by decide)
      (by decide),
   c6_theorem.2 c6RoomWG [("B", "sB", "WALLET", none), ("C", "sC", "W2", none)]
      (by decide)⟩

/-! ## Claim C1 — single-winner prize split -/

/-- Legacy room player A: score 2, stake 1. -/
def c1LegacyA : WordGridGame.Player :=
  { id := "A", socketId := "sA", wallet := "WA", timeRemaining := 100,
    score := 2, isActive := false, betAmount := 1, paymentConfirmed := true }

/-- Legacy room player B: score 1, stake 1. -/
def c1LegacyB : WordGridGame.Player :=
  { id := "B", socketId := "sB", wallet := "WB", timeRemaining := 100,
    score := 1, isActive := false, betAmount := 1, paymentConfirmed := true }

/-- C1 counterexample: in the legacy `WordGridRoom` (src/word-grid-game.js),
with two 1 GOR stakes (pool = 2) and a strict 2‑to‑1 score winner, the
standings pay the winner `2 * 1.8 = 18/5` and the LOSER `2 * 0.2 = 2/5`:
the loser's payout is not zero, and the winner's payout exceeds the whole
pool (so it cannot be pool minus any nonnegative fee). -/
theorem c1_counterexample :
    ((WordGridGame.finishStandings [c1LegacyA, c1LegacyB] (fun _ => 0)
        (WordGridGame.totalPrizePool [c1LegacyA, c1LegacyB])).map
      fun s => (s.wallet, s.prize)) = [("WA", 18 / 5), ("WB", 2 / 5)] ∧
    ((2 : ℚ) / 5 ≠ 0) ∧
    (WordGridGame.totalPrizePool [c1LegacyA, c1LegacyB] < 18 / 5) := by
  refine ⟨?_, by norm_num, ?_⟩
  · simp only [WordGridGame.finishStandings, WordGridGame.totalPrizePool,
      c1LegacyA, c1LegacyB, List.insertionSort, List.orderedInsert]
    norm_num [WordGridGame.scoreOrder]
  · simp only [WordGridGame.totalPrizePool, c1LegacyA, c1LegacyB]
    norm_num

/-- C1 amended: the claim holds for the REAL-WALLET word-grid room: with two
players and a strict score winner (settlement not re-adding time bonuses,
i.e. reason ≠ "time_up"), the final standings pay the winner exactly the
pool total minus the 10% platform fee and the other player exactly zero,
and prize distribution attempts exactly one transfer — the whole prize pool
to the winner.  The legacy `WordGridRoom` violates the claim (see the
counterexample). -/
theorem c1_theorem (platform : Bool) (r : RealWalletWordGridRoom.Room)
    (a b : RealWalletWordGridRoom.Player) (reason : String)
    (hplayers : r.players = [a, b]) (hstrict : b.score < a.score)
    (hreason : reason ≠ "time_up") :
    ((RealWalletWordGridRoom.finishGame platform r reason).1.finalStandings.map
        fun s => (s.wallet, s.prize)) =
      [(a.wallet,
        (a.betAmount + b.betAmount) - (a.betAmount + b.betAmount) * (1 / 10)),
       (b.wallet, 0)] ∧
    (RealWalletWordGridRoom.finishGame platform r reason).1.winnerWallet =
      a.wallet ∧
    (platform = true →
      0 < (a.betAmount + b.betAmount) - (a.betAmount + b.betAmount) * (1 / 10) →
      (RealWalletWordGridRoom.finishGame platform r reason).2.prizeTransfers =
        r.prizeTransfers ++
          [(a.wallet,
            (a.betAmount + b.betAmount) -
              (a.betAmount + b.betAmount) * (1 / 10))]) := by
  have horder : RealWalletWordGridRoom.finishOrder a b := Or.inl hstrict
  simp only [RealWalletWordGridRoom.finishGame, hplayers, if_neg hreason,
    RealWalletWordGridRoom.calculateBetPool, List.insertionSort,
    List.orderedInsert, if_pos horder]
  simp [List.range_succ]
  intro hp hpos
  rw [if_pos ⟨hp, hpos⟩]

/-- Real-wallet word-grid player A: score 2, stake 1. -/
def c1RealA : RealWalletWordGridRoom.Player :=
  { RealWalletWordGridRoom.defaultPlayer with
    id := "A", wallet := "WA", betAmount := 1, score := 2 }

/-- Real-wallet word-grid player B: score 1, stake 1. -/
def c1RealB : RealWalletWordGridRoom.Player :=
  { RealWalletWordGridRoom.defaultPlayer with
    id := "B", wallet := "WB", betAmount := 1, score := 1 }

/-- Real-wallet word-grid room holding players A and B. -/
def c1RoomRW : RealWalletWordGridRoom.Room :=
  { RealWalletWordGridRoom.mkRoom "w3" 1 none (some "WA") with
    gamePhase := .playing, players := [c1RealA, c1RealB] }

/-- C1 witness: the amended theorem applied to the spec's own scenario
(two 1.0 stakes, fee rate 0.10, strict winner A). -/
theorem c1_witness :
    ((RealWalletWordGridRoom.finishGame true c1RoomRW "grid_full").1.finalStandings.map
        fun s => (s.wallet, s.prize)) =
      [("WA", ((1 : ℚ) + 1) - (1 + 1) * (1 / 10)), ("WB", 0)] ∧
    (RealWalletWordGridRoom.finishGame true c1RoomRW "grid_full").1.winnerWallet =
      "WA" :=
  ⟨(c1_theorem true c1RoomRW c1RealA c1RealB "grid_full" rfl (by decide)
      (by decide)).1,
   (c1_theorem true c1RoomRW c1RealA c1RealB "grid_full" rfl (by decide)
      (by decide)).2.1⟩

/-! ## Claim C2 — settlement runs at most once -/

namespace RealWalletWordGridRoom

/-- Player A (room creator), stake verified. -/
def c2PlayerA : Player :=
  { defaultPlayer with
    id := "A", socketId := "sA", wallet := "WA", nickname := "WA",
    betAmount := 1, timeRemaining := 150, paymentConfirmed := true,
    escrowTxSignature := some "e1", isCreator := true }

/-- Player B, stake verified. -/
def c2PlayerB : Player :=
  { defaultPlayer with
    id := "B", socketId := "sB", wallet := "WB", nickname := "WB",
    betAmount := 1, timeRemaining := 150, paymentConfirmed := true,
    escrowTxSignature := some "e2" }

/-- The room at the start of the pre-game countdown: both stakes verified
and escrowed (the state `confirmPayment` leaves behind once `allPaid` and
`enoughPlayers` hold and `startCountdown` has run). -/
def c2Start : Room :=
  { mkRoom "r2" 1 none (some "WA") with
    players := [c2PlayerA, c2PlayerB], gamePhase := .countdown,
    countdownOn := true, totalEscrowed := 2 }

/-- The inbound events: game start, one move by A, the timer tick on which
B's clock reaches zero (turn passes back to A), then two further moves by A.
Each of those two moves ends in `switchTurn` finding B's clock exhausted, so
EACH schedules `finishGame("time_up")`; finally both scheduled timeouts
fire. -/
def c2PlayEvents : List Event :=
  [ .countdownDone 0,
    .place "A" 0 'Q' 1000,
    .timerTick 151000,
    .place "A" 1 'Q' 152000,
    .place "A" 2 'Q' 152500 ]

/-- The cell letter 'Q' placed by player A. -/
def qcell : Cell := { letter := some 'Q', playerId := some "A", isNewWord := false }

/-- The room state after `c2PlayEvents`: grid cells 0-2 hold A's letters,
B's clock is exhausted, and — decisively — TWO `finishGame("time_up")`
callbacks are pending. -/
def c2Pre : Room :=
  { roomId := "r2", betAmount := 1, password := none,
    creatorWallet := some "WA", maxPlayers := 2,
    players :=
      [{ id := "A", socketId := "sA", wallet := "WA", nickname := "WA",
         betAmount := 1, score := 296, timeRemaining := 148,
         turnStartTime := none, totalTimeUsed := 2, isActive := false,
         paymentConfirmed := true, escrowTxSignature := some "e1",
         wordsFound := [], totalLettersPlaced := 3, longestWord := 0,
         isCreator := true, finalRank := none },
       { id := "B", socketId := "sB", wallet := "WB", nickname := "WB",
         betAmount := 1, score := 0, timeRemaining := 0,
         turnStartTime := none, totalTimeUsed := 150, isActive := false,
         paymentConfirmed := true, escrowTxSignature := some "e2",
         wordsFound := [], totalLettersPlaced := 0, longestWord := 0,
         isCreator := false, finalRank := none }],
    gamePhase := .playing, currentPlayer := some "A", gameStartTime := some 0,
    totalGameTime := 150,
    grid := ((emptyGrid.set 0 qcell).set 1 qcell).set 2 qcell,
    wordHistory := [],
    moveHistory :=
      [{ playerId := "A", cellIndex := 0, letter := 'Q', timestamp := 1000,
         moveNumber := 1 },
       { playerId := "A", cellIndex := 1, letter := 'Q', timestamp := 152000,
         moveNumber := 2 },
       { playerId := "A", cellIndex := 2, letter := 'Q', timestamp := 152500,
         moveNumber := 3 }],
    totalEscrowed := 2, turnTimerOn := false, countdownOn := false,
    pendingFinish := ["time_up", "time_up"], prizeTransfers := [] }

end RealWalletWordGridRoom

/-- C2: the code violates the claim.  `finishGame` never checks whether the
room is already `finished`, and `switchTurn` schedules a `finishGame`
timeout EVERY time a move ends while the opponent's clock is exhausted
(without switching the turn or changing the phase, so the mover can move
again).  On the concrete reachable event sequence `c2PlayEvents` two
settlement timeouts are scheduled, both fire, and prize distribution runs
TWICE for the same room — the winner is paid the 1.8 GOR prize pool two
times.  (The word dictionary is instantiated as the empty predicate here;
the scheduling logic never consults it.) -/
theorem c2_theorem :
    (RealWalletWordGridRoom.run (fun _ => false) true
      RealWalletWordGridRoom.c2Start
      (RealWalletWordGridRoom.c2PlayEvents ++
        [.finishTimeout, .finishTimeout])).prizeTransfers =
    [("WA", 9 / 5), ("WA", 9 / 5)] := by
  have hR : List.foldl
      (RealWalletWordGridRoom.step (fun _ => false) true)
      RealWalletWordGridRoom.c2Start RealWalletWordGridRoom.c2PlayEvents =
      RealWalletWordGridRoom.c2Pre := by
    decide
  show (List.foldl (RealWalletWordGridRoom.step (fun _ => false) true)
    RealWalletWordGridRoom.c2Start
    (RealWalletWordGridRoom.c2PlayEvents ++
      [.finishTimeout, .finishTimeout])).prizeTransfers = _
  rw [List.foldl_append, hR]
  norm_num [List.foldl, RealWalletWordGridRoom.step,
    RealWalletWordGridRoom.firePendingFinish,
    RealWalletWordGridRoom.finishGame,
    RealWalletWordGridRoom.calculateBetPool,
    RealWalletWordGridRoom.c2Pre, List.insertionSort, List.orderedInsert,
    RealWalletWordGridRoom.finishOrder, List.range_succ]

/-! ## Claim C8 — per-direction length enumeration -/

/-- `filterMap` of an everywhere-`some` function keeps the length. -/
theorem length_filterMap_of_all_isSome {α β : Type} (f : α → Option β)
    (l : List α) (h : ∀ x ∈ l, (f x).isSome) :
    (l.filterMap f).length = l.length := by
  induction l with
  | nil => rfl
  | cons x xs ih =>
    have hx := h x (List.mem_cons_self x xs)
    rcases Option.isSome_iff_exists.mp hx with ⟨b, hb⟩
    simp [List.filterMap_cons, hb, ih fun y hy => h y (List.mem_cons_of_mem x hy)]

namespace RealWalletWordGridRoom

/-- Every input to the duplicate filter whose key is not yet seen is
represented in the output by an entry with the same word and its sorted
coordinates. -/
theorem dedupeWords_covers (l : List FoundWord)
    (seen : List (String × List Nat)) (fw : FoundWord) (hfw : fw ∈ l)
    (hseen : (fw.word, List.insertionSort (· ≤ ·) fw.coordinates) ∉ seen) :
    ∃ fw' ∈ dedupeWords l seen, fw'.word = fw.word ∧
      fw'.coordinates = List.insertionSort (· ≤ ·) fw.coordinates := by
  induction l generalizing seen with
  | nil => cases hfw
  | cons w ws ih =>
    rcases List.mem_cons.mp hfw with heq | hmem
    · subst heq
      unfold dedupeWords
      by_cases hk : (fw.word, List.insertionSort (· ≤ ·) fw.coordinates) ∈ seen
      · exact absurd hk hseen
      · rw [if_neg hk]
        exact ⟨_, List.mem_cons_self _ _, rfl, rfl⟩
    · unfold dedupeWords
      by_cases hk : (w.word, List.insertionSort (· ≤ ·) w.coordinates) ∈ seen
      · rw [if_pos hk]
        exact ih seen hmem hseen
      · rw [if_neg hk]
        by_cases hkey : (fw.word, List.insertionSort (· ≤ ·) fw.coordinates) =
            (w.word, List.insertionSort (· ≤ ·) w.coordinates)
        · refine ⟨_, List.mem_cons_self _ _, ?_, ?_⟩
          · exact (Prod.mk.injEq _ _ _ _ ▸ hkey).1.symm
          · exact ((Prod.mk.injEq _ _ _ _ ▸ hkey).2).symm
        · have hns : (fw.word, List.insertionSort (· ≤ ·) fw.coordinates) ∉
              ((w.word, List.insertionSort (· ≤ ·) w.coordinates) :: seen) := by
            intro hc
            rcases List.mem_cons.mp hc with h1 | h2
            · exact hkey h1
            · exact hseen h2
          rcases ih _ hmem hns with ⟨fw', hfw', h1, h2⟩
          exact ⟨fw', List.mem_cons_of_mem _ hfw', h1, h2⟩

end RealWalletWordGridRoom

/-- A dictionary membership test marking exactly DO, DOG and GO — all three
are in the source dictionary (DO and GO among the hardcoded
`twoLetterWords`, DOG among the hardcoded `threeLetterWords`). -/
def dogDict : String → Bool := fun w => w == "DO" || w == "DOG" || w == "GO"

/-- An 8×8 grid whose first row starts D, O, G. -/
def dogGrid : Grid :=
  ((emptyGrid.set 0 { letter := some 'D', playerId := none, isNewWord := false }).set 1
      { letter := some 'O', playerId := none, isNewWord := false }).set 2
    { letter := some 'G', playerId := none, isNewWord := false }

/-- C8 counterexample: along the ray D-O-G both "DO" (length 2) and "DOG"
(length 3) are dictionary-valid candidates, but the word-dictionary scanner
(`getWordInDirection`, used by `findWordsInGrid`) RETURNS at the first valid
length: it reports only "DO" (and "GO" read leftward from the G) and never
"DOG", although the length-3 candidate exists on the ray.  The real-wallet
scanner `findAllWordsInGrid` reports all three. -/
theorem c8_counterexample :
    ("DO" ∈ WordDictionary.twoLetterWords ∧
      "GO" ∈ WordDictionary.twoLetterWords ∧
      "DOG" ∈ WordDictionary.threeLetterWords) ∧
    WordDictionary.isValidWord dogDict "DOG" = true ∧
    RealWalletWordGridRoom.candidateAt dogGrid 0 0 0 1 3 =
      some ("DOG", [0, 1, 2]) ∧
    ((WordDictionary.findWordsInGrid dogDict dogGrid).map fun w => w.word) =
      ["DO", "GO"] ∧
    ("DOG" ∉ (WordDictionary.findWordsInGrid dogDict dogGrid).map
      fun w => w.word) ∧
    (((RealWalletWordGridRoom.findAllWordsInGrid dogDict dogGrid).map
        fun w => w.word) = ["DOG", "DO", "GO"]) := by
  refine ⟨by decide, by decide, by decide, by decide, by decide, by decide⟩

/-- C8 amended: the claim holds for the real-wallet scanner
`findAllWordsInGrid`: from any start cell and any of the 8 directions, EVERY
complete candidate of any length 2..8 that the dictionary validates appears
in the scan result (keyed by its uppercased string and sorted cell set) — in
particular a valid word and a valid longer extension along the same ray are
both reported.  The word-dictionary scanner `getWordInDirection` instead
stops at the first valid length per direction (see the counterexample). -/
theorem c8_theorem (validWords : String → Bool) (grid : Grid)
    (sr sc : Int) (d : Int × Int) (len : Nat) (w : String) (coords : List Nat)
    (hd : d ∈ RealWalletWordGridRoom.directions)
    (hlen2 : 2 ≤ len) (hlen8 : len ≤ 8)
    (hcand : RealWalletWordGridRoom.candidateAt grid sr sc d.1 d.2 len =
      some (w, coords))
    (hvalid : WordDictionary.isValidWord validWords w = true) :
    ∃ fw ∈ RealWalletWordGridRoom.findAllWordsInGrid validWords grid,
      fw.word = jsToUpper w ∧
      fw.coordinates = List.insertionSort (· ≤ ·) coords := by
  have hcand0 := hcand
  simp only [RealWalletWordGridRoom.candidateAt] at hcand
  split at hcand
  case isFalse => cases hcand
  case isTrue hall =>
  rw [Option.some.injEq, Prod.mk.injEq] at hcand
  obtain ⟨hw, hcoords⟩ := hcand
  rw [List.all_eq_true] at hall
  have hmem0 : ((sr + d.1 * ((0 : Nat) : Int), sc + d.2 * ((0 : Nat) : Int)) :
      Int × Int) ∈
      (List.range len).map fun (i : Nat) =>
        ((sr + d.1 * (i : Int), sc + d.2 * (i : Int)) : Int × Int) :=
    List.mem_map_of_mem _ (List.mem_range.mpr (by omega))
  have hstart : (RealWalletWordGridRoom.getLetter grid sr sc).isSome := by
    have := hall _ hmem0
    simpa using this
  have hbounds : 0 ≤ sr ∧ sr < 8 ∧ 0 ≤ sc ∧ sc < 8 := by
    by_contra hbc
    unfold RealWalletWordGridRoom.getLetter at hstart
    rw [if_neg hbc] at hstart
    simp at hstart
  have hwlen : w.length = len := by
    rw [← hw, String.length_mk,
      length_filterMap_of_all_isSome _ _ (fun x hx => hall x hx)]
    simp
  have hfwRaw :
      ({ word := jsToUpper w, coordinates := coords, direction := d,
         startPos := (sr, sc) } : RealWalletWordGridRoom.FoundWord) ∈
        RealWalletWordGridRoom.checkAllWordsFromPosition validWords grid sr sc := by
    unfold RealWalletWordGridRoom.checkAllWordsFromPosition
    rcases hgl : RealWalletWordGridRoom.getLetter grid sr sc with _ | c
    · rw [hgl] at hstart; cases hstart
    · rw [if_neg (by simp [hgl])]
      rw [List.mem_flatMap]
      refine ⟨d, hd, ?_⟩
      rw [List.mem_filterMap]
      refine ⟨len, List.mem_range'_1.mpr ⟨hlen2, by omega⟩, ?_⟩
      rw [hcand0]
      exact if_pos ⟨by omega, hvalid⟩
  have hfwWords :
      ({ word := jsToUpper w, coordinates := coords, direction := d,
         startPos := (sr, sc) } : RealWalletWordGridRoom.FoundWord) ∈
      (List.range 8).flatMap fun row =>
        (List.range 8).flatMap fun col =>
          RealWalletWordGridRoom.checkAllWordsFromPosition validWords grid
            (row : Int) (col : Int) := by
    rw [List.mem_flatMap]
    refine ⟨sr.toNat, List.mem_range.mpr (by omega), ?_⟩
    rw [List.mem_flatMap]
    refine ⟨sc.toNat, List.mem_range.mpr (by omega), ?_⟩
    rw [Int.toNat_of_nonneg hbounds.1, Int.toNat_of_nonneg hbounds.2.2.1]
    exact hfwRaw
  obtain ⟨fw', hfw', hw', hc'⟩ :=
    RealWalletWordGridRoom.dedupeWords_covers _ [] _ hfwWords (by simp)
  refine ⟨fw', ?_, ?_, ?_⟩
  · simp only [RealWalletWordGridRoom.findAllWordsInGrid]
    exact (List.mem_insertionSort _).mpr hfw'
  · simpa using hw'
  · simpa using hc'

/-- C8 witness: the amended theorem applied to the D-O-G ray, producing the
length-3 word "DOG" in the real-wallet scan. -/
theorem c8_witness :
    ∃ fw ∈ RealWalletWordGridRoom.findAllWordsInGrid dogDict dogGrid,
      fw.word = jsToUpper "DOG" ∧
      fw.coordinates = List.insertionSort (· ≤ ·) [0, 1, 2] :=
  c8_theorem dogDict dogGrid 0 0 (0, 1) 3 "DOG" [0, 1, 2] (by decide)
    (by decide) (by decide) (by decide) (by decide)

/-! ## Claim C7 — word deduplication key -/

/-- `l.set i a = l` when slot `i` already holds `a`. -/
theorem set_self_of_get? {α : Type} (l : List α) (i : Nat) (a : α)
    (h : l.get? i = some a) : l.set i a = l := by
  induction l generalizing i with
  | nil => rfl
  | cons x xs ih =>
    cases i with
    | zero =>
      simp only [List.get?] at h
      cases h
      rfl
    | succ n =>
      simp only [List.set]
      rw [ih n (by simpa using h)]

namespace RealWalletWordGridRoom

/-- Marking cells as parts of new words changes no letter. -/
theorem markNewWordCells_map_letter (cs : List Nat) (g : Grid) :
    (markNewWordCells g cs).map (fun c => c.letter) =
      g.map fun c => c.letter := by
  induction cs generalizing g with
  | nil => rfl
  | cons i is ih =>
    unfold markNewWordCells
    simp only [List.foldl_cons]
    cases hg : g.get? i with
    | none => exact ih g
    | some cell =>
      refine (ih (g.set i { cell with isNewWord := true })).trans ?_
      rw [List.map_set]
      exact set_self_of_get? _ _ _ (by rw [List.get?_map, hg]; rfl)

/-- `getLetter` only looks at the letters. -/
theorem getLetter_congr (g g' : Grid)
    (hmap : g.map (fun c => c.letter) = g'.map fun c => c.letter) :
    ∀ row col, getLetter g row col = getLetter g' row col := by
  intro row col
  unfold getLetter
  by_cases hb : 0 ≤ row ∧ row < 8 ∧ 0 ≤ col ∧ col < 8
  · rw [if_pos hb, if_pos hb]
    have h1 : (g.map (fun c => c.letter)).get? (row * 8 + col).toNat =
        (g'.map (fun c => c.letter)).get? (row * 8 + col).toNat := by rw [hmap]
    rw [List.get?_map, List.get?_map] at h1
    cases hg : g.get? (row * 8 + col).toNat with
    | none =>
      rw [hg] at h1
      cases hg' : g'.get? (row * 8 + col).toNat with
      | none => rfl
      | some c' => rw [hg'] at h1; cases h1
    | some c =>
      rw [hg] at h1
      cases hg' : g'.get? (row * 8 + col).toNat with
      | none => rw [hg'] at h1; cases h1
      | some c' =>
        rw [hg'] at h1
        simpa using h1
  · rw [if_neg hb, if_neg hb]

/-- The scan only looks at the letters. -/
theorem findAllWordsInGrid_congr (v : String → Bool) (g g' : Grid)
    (h : ∀ row col, getLetter g row col = getLetter g' row col) :
    findAllWordsInGrid v g = findAllWordsInGrid v g' := by
  unfold findAllWordsInGrid checkAllWordsFromPosition candidateAt
  simp only [h]

/-- Keys of dedupe-output entries are never among the already-seen keys. -/
theorem dedupeWords_key_not_seen (l : List FoundWord)
    (seen : List (String × List Nat)) :
    ∀ o ∈ dedupeWords l seen, (o.word, o.coordinates) ∉ seen := by
  induction l generalizing seen with
  | nil => intro o ho; cases ho
  | cons w ws ih =>
    intro o ho
    unfold dedupeWords at ho
    by_cases hk : (w.word, List.insertionSort (· ≤ ·) w.coordinates) ∈ seen
    · rw [if_pos hk] at ho
      exact ih seen o ho
    · rw [if_neg hk] at ho
      rcases List.mem_cons.mp ho with heq | hmem
      · subst heq; exact hk
      · intro hc
        exact ih _ o hmem (List.mem_cons_of_mem _ hc)

/-- The dedupe output has pairwise-distinct (word, cell set) keys. -/
theorem dedupeWords_pairwise (l : List FoundWord)
    (seen : List (String × List Nat)) :
    (dedupeWords l seen).Pairwise
      (fun a b => (a.word, a.coordinates) ≠ (b.word, b.coordinates)) := by
  induction l generalizing seen with
  | nil => exact List.Pairwise.nil
  | cons w ws ih =>
    unfold dedupeWords
    by_cases hk : (w.word, List.insertionSort (· ≤ ·) w.coordinates) ∈ seen
    · rw [if_pos hk]; exact ih seen
    · rw [if_neg hk]
      refine List.Pairwise.cons ?_ (ih _)
      intro o ho hoeq
      have := dedupeWords_key_not_seen _ _ o ho
      exact this (hoeq ▸ List.mem_cons_self _ _)

/-- The real-wallet scan never reports the same (word, cell set) twice: the
within-scan deduplication key is the word string plus the sorted cell set. -/
theorem findAllWordsInGrid_key_nodup (v : String → Bool) (g : Grid) :
    (findAllWordsInGrid v g).Pairwise
      (fun a b => (a.word, a.coordinates) ≠ (b.word, b.coordinates)) := by
  unfold findAllWordsInGrid
  have hperm := List.perm_insertionSort displayOrder
    (dedupeWords ((List.range 8).flatMap fun row =>
      (List.range 8).flatMap fun col =>
        checkAllWordsFromPosition v g (row : Int) (col : Int)) [])
  refine (List.Perm.pairwise_iff (fun hxy heq => hxy heq.symm) hperm).mpr ?_
  exact dedupeWords_pairwise _ _

/-- `chargeCurrent` does not touch the word history, the grid or the phase. -/
theorem chargeCurrent_fields (r0 : Room) (now : Int) :
    (chargeCurrent r0 now).wordHistory = r0.wordHistory ∧
    (chargeCurrent r0 now).grid = r0.grid ∧
    (chargeCurrent r0 now).gamePhase = r0.gamePhase := by
  unfold chargeCurrent
  repeat' split
  all_goals simp

/-- `awardTimeBonus` does not touch the word history, the grid or the phase. -/
theorem awardTimeBonus_fields (r1 : Room) :
    (awardTimeBonus r1).wordHistory = r1.wordHistory ∧
    (awardTimeBonus r1).grid = r1.grid ∧
    (awardTimeBonus r1).gamePhase = r1.gamePhase := by
  unfold awardTimeBonus
  repeat' split
  all_goals simp

/-- `switchTurn` does not touch the word history, the grid or the phase. -/
theorem switchTurn_fields (r : Room) (now : Int) :
    (switchTurn r now).wordHistory = r.wordHistory ∧
    (switchTurn r now).grid = r.grid ∧
    (switchTurn r now).gamePhase = r.gamePhase := by
  simp only [switchTurn, startTurnTimer]
  split
  · refine ⟨?_, ?_, ?_⟩ <;>
      simp [(chargeCurrent_fields _ now).1, (chargeCurrent_fields _ now).2.1,
        (chargeCurrent_fields _ now).2.2, (awardTimeBonus_fields _).1,
        (awardTimeBonus_fields _).2.1, (awardTimeBonus_fields _).2.2]
  · refine ⟨?_, ?_, ?_⟩ <;>
      simp [(chargeCurrent_fields _ now).1, (chargeCurrent_fields _ now).2.1,
        (chargeCurrent_fields _ now).2.2]

/-- Inversion for an accepted `placeLetter`: all five validations passed and
the outcome is `placeLetterCore`. -/
theorem placeLetter_ok_core (v : String → Bool) (r : Room) (pid : String)
    (ci : Int) (l : Char) (now : Int) (res : PlaceResult) (r' : Room)
    (h : placeLetter v r pid ci l now = .ok (res, r')) :
    (res, r') = placeLetterCore v r pid ci l now ∧
    r.gamePhase = .playing ∧ r.currentPlayer = some pid ∧
    ¬(ci < 0 ∨ 64 ≤ ci) ∧
    ((r.grid.getD ci.toNat emptyCell).letter) = none := by
  unfold placeLetter at h
  split at h
  · cases h
  split at h
  · cases h
  split at h
  · cases h
  split at h
  · cases h
  split at h
  · cases h
  rw [Except.ok.injEq] at h
  rename_i h1 h2 h3 h4 h5
  refine ⟨h.symm, by simpa using h1, by simpa using h2, h3, ?_⟩
  simpa using h4

/-- The word set one placement scores: the full rescan of the updated grid,
filtered against the previously counted word STRINGS. -/
def scanNew (v : String → Bool) (r : Room) (pid : String) (ci : Int)
    (l : Char) : List FoundWord :=
  (findAllWordsInGrid v (r.grid.set ci.toNat
      { letter := some l.toUpper, playerId := some pid,
        isNewWord := false })).filter fun w =>
    ¬ (r.wordHistory.map fun hw => jsToUpper hw.word).contains (jsToUpper w.word)

/-- `placeLetterCore` reports exactly `scanNew` as the new words, scored by
total length. -/
theorem placeLetterCore_newWords (v : String → Bool) (r : Room) (pid : String)
    (ci : Int) (l : Char) (now : Int) :
    (placeLetterCore v r pid ci l now).1.newWords = scanNew v r pid ci l ∧
    (placeLetterCore v r pid ci l now).1.pointsEarned =
      ((scanNew v r pid ci l).map fun w => w.word.length).sum := by
  constructor <;> rfl

/-- `placeLetterCore` appends exactly the `scanNew` records to the word
history. -/
theorem placeLetterCore_wordHistory (v : String → Bool) (r : Room)
    (pid : String) (ci : Int) (l : Char) (now : Int) :
    (placeLetterCore v r pid ci l now).2.wordHistory =
      r.wordHistory ++ (scanNew v r pid ci l).map fun w =>
        ({ word := w.word, points := w.word.length,
           coordinates := w.coordinates, direction := w.direction,
           playerId := pid, timestamp := now } : HistoryWord) := by
  simp only [placeLetterCore]
  split
  · rename_i hempty
    rw [List.isEmpty_iff] at hempty
    split <;>
      (rw [(switchTurn_fields _ now).1]
       simp only [scanNew] at hempty ⊢
       simp [hempty]
       intro a ha
       by_contra hno
       have hmem : a ∈ List.filter
           (fun w => decide (¬(List.map (fun w => jsToUpper w.word)
             r.wordHistory).contains (jsToUpper w.word) = true))
           (findAllWordsInGrid v (List.set r.grid ci.toNat
             { letter := some l.toUpper, playerId := some pid,
               isNewWord := false })) := by
         rw [List.mem_filter]
         exact ⟨ha, by simpa using hno⟩
       rw [hempty] at hmem
       cases hmem)
  · split <;>
      (rw [(switchTurn_fields _ now).1]
       simp [scanNew])

end RealWalletWordGridRoom

/-- C7 amended: within one scan, `findAllWordsInGrid` deduplicates by the
key (word string, sorted cell set) — its output never carries two entries
with the same word and cell set.  ACROSS moves, however, the scoring filter
of `placeLetter` deduplicates by word STRING alone: an accepted placement
scores exactly the scan words whose uppercased string does not already
appear in the room's word history, so a string scored in an earlier move is
never scored again even on a different cell set (see the counterexample for
the resulting divergence from the claim). -/
theorem c7_theorem (v : String → Bool) (r : RealWalletWordGridRoom.Room)
    (pid : String) (ci : Int) (l : Char) (now : Int)
    (res : RealWalletWordGridRoom.PlaceResult)
    (r' : RealWalletWordGridRoom.Room)
    (h : RealWalletWordGridRoom.placeLetter v r pid ci l now = .ok (res, r')) :
    (∀ w ∈ res.newWords,
      jsToUpper w.word ∉ r.wordHistory.map fun hw => jsToUpper hw.word) ∧
    ((r'.wordHistory.map fun hw => jsToUpper hw.word) =
      (r.wordHistory.map fun hw => jsToUpper hw.word) ++
        res.newWords.map fun w => jsToUpper w.word) ∧
    res.pointsEarned = (res.newWords.map fun w => w.word.length).sum ∧
    (RealWalletWordGridRoom.findAllWordsInGrid v r'.grid).Pairwise
      (fun a b => (a.word, a.coordinates) ≠ (b.word, b.coordinates)) := by
  obtain ⟨hcore, _, _, _, _⟩ :=
    RealWalletWordGridRoom.placeLetter_ok_core v r pid ci l now res r' h
  have hres : res = (RealWalletWordGridRoom.placeLetterCore v r pid ci l now).1 :=
    congrArg Prod.fst hcore
  have hr' : r' = (RealWalletWordGridRoom.placeLetterCore v r pid ci l now).2 :=
    congrArg Prod.snd hcore
  obtain ⟨hnew, hpts⟩ :=
    RealWalletWordGridRoom.placeLetterCore_newWords v r pid ci l now
  refine ⟨?_, ?_, ?_, ?_⟩
  · intro w hw
    rw [hres, hnew] at hw
    unfold RealWalletWordGridRoom.scanNew at hw
    rw [List.mem_filter] at hw
    simpa using hw.2
  · rw [hr', RealWalletWordGridRoom.placeLetterCore_wordHistory, hres, hnew]
    simp [List.map_map, Function.comp]
  · rw [hres, hnew, hpts]
  · rw [hr']
    exact RealWalletWordGridRoom.findAllWordsInGrid_key_nodup v _

namespace RealWalletWordGridRoom

/-- A dictionary membership test marking exactly "GO" (which is in the
source's hardcoded `twoLetterWords`). -/
def goDict : String → Bool := fun w => w == "GO"

/-- C7 trace: player A, active and to move. -/
def c7PlayerA : Player :=
  { defaultPlayer with
    id := "A", socketId := "sA", wallet := "WA", nickname := "WA",
    betAmount := 1, timeRemaining := 150, paymentConfirmed := true,
    isActive := true, turnStartTime := some 0, isCreator := true }

/-- C7 trace: player B. -/
def c7PlayerB : Player :=
  { defaultPlayer with
    id := "B", socketId := "sB", wallet := "WB", nickname := "WB",
    betAmount := 1, timeRemaining := 150, paymentConfirmed := true }

/-- A word-grid room in play, A to move. -/
def c7Start : Room :=
  { mkRoom "r7" 1 none (some "WA") with
    players := [c7PlayerA, c7PlayerB], gamePhase := .playing,
    currentPlayer := some "A", gameStartTime := some 0, turnTimerOn := true,
    totalEscrowed := 2 }

/-- Three placements building G-O in row 0 (scores "GO" at cells {0,1}) and
a lone G at cell 16, followed by B completing a SECOND "GO" at cells
{16,17}. -/
def c7Run : Option (PlaceResult × Room) :=
  match runPlacements goDict c7Start
      [("A", 0, 'G', 1000), ("B", 1, 'O', 2000), ("A", 16, 'G', 3000)] with
  | some r3 => (placeLetter goDict r3 "B" 17 'O' 4000).toOption
  | none => none

end RealWalletWordGridRoom

/-- C7 counterexample: after "GO" has been scored at cells {0,1}, completing
the same string on the DIFFERENT cell set {16,17} scores nothing: the final
placement reports zero points and no new words, and nothing is appended to
the word history — although the scan of the final grid shows the second
occurrence ("GO", {16,17}) as a distinct (word, cell set) key.  The claim's
"counted again as a distinct scored occurrence" fails, because the
cross-move filter compares word strings only. -/
theorem c7_counterexample :
    (RealWalletWordGridRoom.c7Run.map fun x =>
      (x.1.pointsEarned, x.1.newWords.length)) = some (0, 0) ∧
    (RealWalletWordGridRoom.c7Run.map fun x =>
      x.2.wordHistory.map fun h => (h.word, h.coordinates)) =
      some [("GO", [0, 1])] ∧
    (RealWalletWordGridRoom.c7Run.map fun x =>
      (RealWalletWordGridRoom.findAllWordsInGrid
          RealWalletWordGridRoom.goDict x.2.grid).map fun w =>
        (w.word, w.coordinates)) =
      some [("GO", [0, 1]), ("GO", [16, 17])] := by
  refine ⟨by decide, by decide, by decide⟩

namespace RealWalletWordGridRoom

/-- The result of the first C7 placement (A places G at cell 0). -/
def c7Res1 : PlaceResult :=
  { nextPlayer := some "B", moveNumber := 1, emptySpots := 63,
    newWords := [], pointsEarned := 0 }

/-- The room after the first C7 placement. -/
def c7Room1 : Room :=
  { mkRoom "r7" 1 none (some "WA") with
    players :=
      [{ c7PlayerA with
         timeRemaining := 149, turnStartTime := none, totalTimeUsed := 1,
         isActive := false, totalLettersPlaced := 1 },
       { c7PlayerB with isActive := true, turnStartTime := some 1000 }],
    gamePhase := .playing, currentPlayer := some "B",
    gameStartTime := some 0,
    grid := emptyGrid.set 0
      { letter := some 'G', playerId := some "A", isNewWord := false },
    moveHistory :=
      [{ playerId := "A", cellIndex := 0, letter := 'G', timestamp := 1000,
         moveNumber := 1 }],
    totalEscrowed := 2, turnTimerOn := true }

end RealWalletWordGridRoom

/-- Recover an `Except` success from its `toOption` image. -/
theorem except_ok_of_toOption {ε α : Type} {e : Except ε α} {a : α}
    (h : e.toOption = some a) : e = .ok a := by
  cases e with
  | ok b => simpa [Except.toOption] using h
  | error x => simp [Except.toOption] at h

/-- C7 witness: the amended theorem applied to a concrete accepted
placement. -/
theorem c7_witness :
    ((RealWalletWordGridRoom.c7Room1.wordHistory.map fun hw => jsToUpper hw.word) =
      (RealWalletWordGridRoom.c7Start.wordHistory.map fun hw => jsToUpper hw.word) ++
        RealWalletWordGridRoom.c7Res1.newWords.map fun w => jsToUpper w.word) ∧
    RealWalletWordGridRoom.c7Res1.pointsEarned =
      (RealWalletWordGridRoom.c7Res1.newWords.map fun w => w.word.length).sum :=
  ⟨(c7_theorem RealWalletWordGridRoom.goDict RealWalletWordGridRoom.c7Start
      "A" 0 'G' 1000 RealWalletWordGridRoom.c7Res1
      RealWalletWordGridRoom.c7Room1 (except_ok_of_toOption (by decide))).2.1,
   (c7_theorem RealWalletWordGridRoom.goDict RealWalletWordGridRoom.c7Start
      "A" 0 'G' 1000 RealWalletWordGridRoom.c7Res1
      RealWalletWordGridRoom.c7Room1 (except_ok_of_toOption (by decide))).2.2.1⟩

namespace RealWalletWordGridRoom

/-- The concatenated per-position results of the scan, before dedup/sort. -/
def rawWords (v : String → Bool) (g : Grid) : List FoundWord :=
  (List.range 8).flatMap fun row =>
    (List.range 8).flatMap fun col =>
      checkAllWordsFromPosition v g (row : Int) (col : Int)

theorem findAllWordsInGrid_eq_raw (v : String → Bool) (g : Grid) :
    findAllWordsInGrid v g =
      List.insertionSort displayOrder (dedupeWords (rawWords v g) []) := rfl

theorem dedupeWords_word_sub (l : List FoundWord)
    (seen : List (String × List Nat)) :
    ∀ o ∈ dedupeWords l seen, ∃ w ∈ l, o.word = w.word := by
  induction l generalizing seen with
  | nil => intro o ho; cases ho
  | cons w ws ih =>
    intro o ho
    unfold dedupeWords at ho
    by_cases hk : (w.word, List.insertionSort (· ≤ ·) w.coordinates) ∈ seen
    · rw [if_pos hk] at ho
      rcases ih seen o ho with ⟨w', hw', he⟩
      exact ⟨w', List.mem_cons_of_mem _ hw', he⟩
    · rw [if_neg hk] at ho
      rcases List.mem_cons.mp ho with heq | hmem
      · exact ⟨w, List.mem_cons_self _ _, by rw [heq]⟩
      · rcases ih _ o hmem with ⟨w', hw', he⟩
        exact ⟨w', List.mem_cons_of_mem _ hw', he⟩

theorem mem_scanUpper_iff (v : String → Bool) (g : Grid) (s : String) :
    (s ∈ (findAllWordsInGrid v g).map fun w => jsToUpper w.word) ↔
    (s ∈ (rawWords v g).map fun w => jsToUpper w.word) := by
  rw [findAllWordsInGrid_eq_raw]
  constructor
  · intro hs
    rcases List.mem_map.mp hs with ⟨o, ho, he⟩
    have ho' := (List.mem_insertionSort _).mp ho
    rcases dedupeWords_word_sub _ _ o ho' with ⟨w, hw, hwe⟩
    exact List.mem_map.mpr ⟨w, hw, by rw [← he, hwe]⟩
  · intro hs
    rcases List.mem_map.mp hs with ⟨w, hw, he⟩
    rcases dedupeWords_covers _ [] w hw (by simp) with ⟨o, ho, hoe, _⟩
    exact List.mem_map.mpr
      ⟨o, (List.mem_insertionSort _).mpr ho, by rw [← he, hoe]⟩

theorem getLetter_set_of_some (g : Grid) (idx : Nat) (cell : Cell)
    (hempty : (g.getD idx emptyCell).letter = none) (row col : Int) (ch : Char)
    (h : getLetter g row col = some ch) :
    getLetter (g.set idx cell) row col = some ch := by
  unfold getLetter at h ⊢
  by_cases hb : 0 ≤ row ∧ row < 8 ∧ 0 ≤ col ∧ col < 8
  · rw [if_pos hb] at h ⊢
    rcases hg : g.get? (row * 8 + col).toNat with _ | c0
    · rw [hg] at h; cases h
    · rw [hg] at h
      have h2 : c0.letter = some ch := h
      by_cases hIdx : idx = (row * 8 + col).toNat
      · exfalso
        rw [List.getD_eq_getElem?_getD, hIdx, ← List.get?_eq_getElem?, hg] at hempty
        simp only [Option.getD_some] at hempty
        rw [hempty] at h2
        cases h2
      · rw [List.get?_set, if_neg hIdx, hg]
        exact h
  · rw [if_neg hb] at h; cases h

theorem candidateAt_set (g : Grid) (idx : Nat) (cell : Cell)
    (hempty : (g.getD idx emptyCell).letter = none) (sr sc dr dc : Int)
    (len : Nat) (x : String × List Nat)
    (h : candidateAt g sr sc dr dc len = some x) :
    candidateAt (g.set idx cell) sr sc dr dc len = some x := by
  simp only [candidateAt] at h ⊢
  split at h
  case isFalse => cases h
  case isTrue hall =>
  rw [List.all_eq_true] at hall
  have hpres : ∀ rc ∈ (List.range len).map fun (i : Nat) =>
      ((sr + dr * (i : Int), sc + dc * (i : Int)) : Int × Int),
      getLetter (g.set idx cell) rc.1 rc.2 = getLetter g rc.1 rc.2 := by
    intro rc hrc
    rcases Option.isSome_iff_exists.mp (by simpa using hall rc hrc) with ⟨ch, hch⟩
    rw [hch]
    exact getLetter_set_of_some g idx cell hempty rc.1 rc.2 ch hch
  have hcond : ((List.range len).map fun (i : Nat) =>
      ((sr + dr * (i : Int), sc + dc * (i : Int)) : Int × Int)).all
        (fun rc => (getLetter (g.set idx cell) rc.1 rc.2).isSome) = true := by
    rw [List.all_eq_true]
    intro rc hrc
    rw [hpres rc hrc]
    exact hall rc hrc
  rw [if_pos hcond, List.filterMap_congr hpres]
  exact h

theorem checkAllWords_set_mono (v : String → Bool) (g : Grid) (idx : Nat)
    (cell : Cell) (hempty : (g.getD idx emptyCell).letter = none)
    (row col : Int) (fw : FoundWord)
    (h : fw ∈ checkAllWordsFromPosition v g row col) :
    fw ∈ checkAllWordsFromPosition v (g.set idx cell) row col := by
  unfold checkAllWordsFromPosition at h ⊢
  split at h
  case isTrue => cases h
  case isFalse hocc =>
  have hsome : (getLetter g row col).isSome := by
    cases hg : getLetter g row col with
    | none => exact absurd (by rw [hg]; rfl) hocc
    | some ch => rfl
  rcases Option.isSome_iff_exists.mp hsome with ⟨ch, hch⟩
  have hch' := getLetter_set_of_some g idx cell hempty row col ch hch
  rw [if_neg (by rw [hch']; simp)]
  rcases List.mem_flatMap.mp h with ⟨d, hd, hbody⟩
  refine List.mem_flatMap.mpr ⟨d, hd, ?_⟩
  rcases List.mem_filterMap.mp hbody with ⟨len, hlen, hres⟩
  refine List.mem_filterMap.mpr ⟨len, hlen, ?_⟩
  rcases hc : candidateAt g row col d.1 d.2 len with _ | x
  · rw [hc] at hres; cases hres
  · rw [hc] at hres
    rw [candidateAt_set g idx cell hempty row col d.1 d.2 len x hc]
    exact hres

theorem rawWords_set_mono (v : String → Bool) (g : Grid) (idx : Nat)
    (cell : Cell) (hempty : (g.getD idx emptyCell).letter = none)
    (fw : FoundWord) (h : fw ∈ rawWords v g) :
    fw ∈ rawWords v (g.set idx cell) := by
  unfold rawWords at h ⊢
  rcases List.mem_flatMap.mp h with ⟨row, hrow, h1⟩
  rcases List.mem_flatMap.mp h1 with ⟨col, hcol, h2⟩
  exact List.mem_flatMap.mpr ⟨row, hrow, List.mem_flatMap.mpr
    ⟨col, hcol, checkAllWords_set_mono v g idx cell hempty _ _ fw h2⟩⟩

/-- The uppercased word strings the full scan reports. -/
def scanUpper (v : String → Bool) (g : Grid) : List String :=
  (findAllWordsInGrid v g).map fun w => jsToUpper w.word

/-- The uppercased word strings the room has accumulated in its history. -/
def historyUpper (r : Room) : List String :=
  r.wordHistory.map fun hw => jsToUpper hw.word

theorem scanUpper_set_mono (v : String → Bool) (g : Grid) (idx : Nat)
    (cell : Cell) (hempty : (g.getD idx emptyCell).letter = none)
    (s : String) (h : s ∈ scanUpper v g) : s ∈ scanUpper v (g.set idx cell) := by
  unfold scanUpper at h ⊢
  rw [mem_scanUpper_iff] at h ⊢
  rcases List.mem_map.mp h with ⟨fw, hfw, he⟩
  exact List.mem_map.mpr ⟨fw, rawWords_set_mono v g idx cell hempty fw hfw, he⟩

theorem placeLetterCore_scan (v : String → Bool) (r : Room) (pid : String)
    (ci : Int) (l : Char) (now : Int) :
    findAllWordsInGrid v (placeLetterCore v r pid ci l now).2.grid =
      findAllWordsInGrid v (r.grid.set ci.toNat
        { letter := some l.toUpper, playerId := some pid,
          isNewWord := false }) := by
  simp only [placeLetterCore]
  split
  · split <;>
      simp [(switchTurn_fields _ now).2.1]
  · split <;>
      (rw [(switchTurn_fields _ now).2.1]
       simp only
       exact findAllWordsInGrid_congr v _ _
         (getLetter_congr _ _ (markNewWordCells_map_letter _ _)))

theorem placeLetter_preserves_inv (v : String → Bool) (r : Room)
    (pid : String) (ci : Int) (l : Char) (now : Int) (res : PlaceResult)
    (r' : Room) (h : placeLetter v r pid ci l now = .ok (res, r'))
    (hinv : ∀ s, s ∈ historyUpper r ↔ s ∈ scanUpper v r.grid) :
    ∀ s, s ∈ historyUpper r' ↔ s ∈ scanUpper v r'.grid := by
  obtain ⟨hcore, -, -, -, hcell⟩ := placeLetter_ok_core v r pid ci l now res r' h
  have hr' : r' = (placeLetterCore v r pid ci l now).2 := congrArg Prod.snd hcore
  have hscan : scanUpper v r'.grid = scanUpper v (r.grid.set ci.toNat
      { letter := some l.toUpper, playerId := some pid,
        isNewWord := false }) := by
    unfold scanUpper
    rw [hr', placeLetterCore_scan]
  have hhist : historyUpper r' = historyUpper r ++
      (scanNew v r pid ci l).map fun w => jsToUpper w.word := by
    unfold historyUpper
    rw [hr', placeLetterCore_wordHistory]
    simp [List.map_map, Function.comp]
  intro s
  rw [hscan, hhist, List.mem_append]
  constructor
  · rintro (hs | hs)
    · exact scanUpper_set_mono v r.grid ci.toNat _ hcell s ((hinv s).mp hs)
    · rcases List.mem_map.mp hs with ⟨w, hw, he⟩
      unfold scanNew at hw
      have hw' := List.mem_filter.mp hw
      exact List.mem_map.mpr ⟨w, hw'.1, he⟩
  · intro hs
    rcases List.mem_map.mp hs with ⟨fw, hfw, he⟩
    by_cases hmem : s ∈ historyUpper r
    · exact Or.inl hmem
    · refine Or.inr (List.mem_map.mpr ⟨fw, ?_, he⟩)
      unfold scanNew
      rw [List.mem_filter]
      refine ⟨hfw, ?_⟩
      unfold historyUpper at hmem
      rw [← he] at hmem
      simpa using hmem

theorem runPlacements_inv (v : String → Bool) :
    ∀ (cmds : List (String × Int × Char × Int)) (r r' : Room),
    runPlacements v r cmds = some r' →
    (∀ s, s ∈ historyUpper r ↔ s ∈ scanUpper v r.grid) →
    (∀ s, s ∈ historyUpper r' ↔ s ∈ scanUpper v r'.grid) := by
  intro cmds
  induction cmds with
  | nil =>
    intro r r' h hinv
    unfold runPlacements at h
    cases h
    exact hinv
  | cons c rest ih =>
    intro r r' h hinv
    obtain ⟨pid, ci, l, now⟩ := c
    unfold runPlacements at h
    rcases hp : placeLetter v r pid ci l now with e | pr
    · rw [hp] at h
      cases h
    · rw [hp] at h
      exact ih pr.2 r' h
        (placeLetter_preserves_inv v r pid ci l now pr.1 pr.2
          (by rw [hp]) hinv)

theorem scanUpper_emptyGrid (v : String → Bool) : scanUpper v emptyGrid = [] :=
  rfl

end RealWalletWordGridRoom

/-- C9: the word-search engine is deterministic and order-independent.
Scanning the same board twice yields the same result (the scan is a pure
function of the grid); for any sequence of accepted placements starting from
an empty grid and empty word history, the accumulated per-move detections
(the word history) contain exactly the word strings of one full-board scan
of the final grid; and two placement sequences that build the same final
grid accumulate the same word set. -/
theorem c9_theorem (v : String → Bool) (g : Grid)
    (r0 r0' rN rN' : RealWalletWordGridRoom.Room)
    (cmds cmds' : List (String × Int × Char × Int))
    (h0g : r0.grid = emptyGrid)
    (h0h : r0.wordHistory = [])
    (h0g' : r0'.grid = emptyGrid)
    (h0h' : r0'.wordHistory = [])
    (hrun : RealWalletWordGridRoom.runPlacements v r0 cmds = some rN)
    (hrun' : RealWalletWordGridRoom.runPlacements v r0' cmds' = some rN')
    (hsame : rN.grid = rN'.grid) :
    RealWalletWordGridRoom.findAllWordsInGrid v g =
      RealWalletWordGridRoom.findAllWordsInGrid v g ∧
    (∀ s, s ∈ RealWalletWordGridRoom.historyUpper rN ↔
      s ∈ RealWalletWordGridRoom.scanUpper v rN.grid) ∧
    (∀ s, s ∈ RealWalletWordGridRoom.historyUpper rN ↔
      s ∈ RealWalletWordGridRoom.historyUpper rN') := by
  have hinv0 : ∀ s, s ∈ RealWalletWordGridRoom.historyUpper r0 ↔
      s ∈ RealWalletWordGridRoom.scanUpper v r0.grid := by
    intro s
    unfold RealWalletWordGridRoom.historyUpper
    rw [h0h, h0g, RealWalletWordGridRoom.scanUpper_emptyGrid]
    simp
  have hinv0' : ∀ s, s ∈ RealWalletWordGridRoom.historyUpper r0' ↔
      s ∈ RealWalletWordGridRoom.scanUpper v r0'.grid := by
    intro s
    unfold RealWalletWordGridRoom.historyUpper
    rw [h0h', h0g', RealWalletWordGridRoom.scanUpper_emptyGrid]
    simp
  have hN := RealWalletWordGridRoom.runPlacements_inv v cmds r0 rN hrun hinv0
  have hN' := RealWalletWordGridRoom.runPlacements_inv v cmds' r0' rN' hrun' hinv0'
  refine ⟨rfl, hN, fun s => ?_⟩
  rw [hN s, hN' s]
  unfold RealWalletWordGridRoom.scanUpper
  rw [hsame]

namespace RealWalletWordGridRoom

/-- C9 witness room: two paid players in play, A to move, empty grid. -/
def c9Start : Room :=
  { mkRoom "r9" 1 none (some "WA") with
    players :=
      [{ defaultPlayer with
         id := "A", socketId := "sA", wallet := "WA", nickname := "WA",
         betAmount := 1, timeRemaining := 150, paymentConfirmed := true,
         isActive := true, turnStartTime := some 0, isCreator := true },
       { defaultPlayer with
         id := "B", socketId := "sB", wallet := "WB", nickname := "WB",
         betAmount := 1, timeRemaining := 150, paymentConfirmed := true }],
    gamePhase := .playing, currentPlayer := some "A", gameStartTime := some 0,
    turnTimerOn := true, totalEscrowed := 2 }

/-- First placement order: G then O around B's unrelated Z moves. -/
def c9Cmds : List (String × Int × Char × Int) :=
  [("A", 0, 'G', 1000), ("B", 9, 'Z', 2000),
   ("A", 1, 'O', 3000), ("B", 10, 'Z', 4000)]

/-- Second placement order: the same four placements, A's two in the
opposite order. -/
def c9Cmds2 : List (String × Int × Char × Int) :=
  [("A", 1, 'O', 1000), ("B", 9, 'Z', 2000),
   ("A", 0, 'G', 3000), ("B", 10, 'Z', 4000)]

/-- The room after the first placement order. -/
def c9End : Room :=
  (runPlacements goDict c9Start c9Cmds).getD (mkRoom "" 0 none none)

/-- The room after the second placement order. -/
def c9End2 : Room :=
  (runPlacements goDict c9Start c9Cmds2).getD (mkRoom "" 0 none none)

end RealWalletWordGridRoom

/-- C9 witness: the theorem applied to two concrete four-move games that
build the same final grid in different orders. -/
theorem c9_witness :
    RealWalletWordGridRoom.findAllWordsInGrid RealWalletWordGridRoom.goDict
        RealWalletWordGridRoom.c9End.grid =
      RealWalletWordGridRoom.findAllWordsInGrid RealWalletWordGridRoom.goDict
        RealWalletWordGridRoom.c9End.grid ∧
    (∀ s, s ∈ RealWalletWordGridRoom.historyUpper RealWalletWordGridRoom.c9End ↔
      s ∈ RealWalletWordGridRoom.scanUpper RealWalletWordGridRoom.goDict
        RealWalletWordGridRoom.c9End.grid) ∧
    (∀ s, s ∈ RealWalletWordGridRoom.historyUpper RealWalletWordGridRoom.c9End ↔
      s ∈ RealWalletWordGridRoom.historyUpper RealWalletWordGridRoom.c9End2) :=
  c9_theorem RealWalletWordGridRoom.goDict
    RealWalletWordGridRoom.c9End.grid
    RealWalletWordGridRoom.c9Start RealWalletWordGridRoom.c9Start
    RealWalletWordGridRoom.c9End RealWalletWordGridRoom.c9End2
    RealWalletWordGridRoom.c9Cmds RealWalletWordGridRoom.c9Cmds2
    rfl rfl rfl rfl (by decide) (by decide) (by decide)

namespace RealWalletWordGridRoom

/-- Every member of an `updateFirst` image is an original member or the
image of one under the update. -/
theorem mem_updateFirst (f : Player → Player) (pid : String)
    (l : List Player) : ∀ q ∈ updateFirst f pid l,
    q ∈ l ∨ ∃ p, p ∈ l ∧ q = f p := by
  induction l with
  | nil => intro q hq; cases hq
  | cons p rest ih =>
    intro q hq
    unfold updateFirst at hq
    split at hq
    · rcases List.mem_cons.mp hq with he | hm
      · exact Or.inr ⟨p, List.mem_cons_self _ _, he⟩
      · exact Or.inl (List.mem_cons_of_mem _ hm)
    · rcases List.mem_cons.mp hq with he | hm
      · exact Or.inl (he ▸ List.mem_cons_self _ _)
      · rcases ih q hm with h | ⟨p', hp', he⟩
        · exact Or.inl (List.mem_cons_of_mem _ h)
        · exact Or.inr ⟨p', List.mem_cons_of_mem _ hp', he⟩

/-- Position-wise view of `updateFirst`: each slot is unchanged or updated. -/
theorem updateFirst_get? (f : Player → Player) (pid : String)
    (l : List Player) (i : Nat) :
    (updateFirst f pid l).get? i = l.get? i ∨
    ∃ p, l.get? i = some p ∧ (updateFirst f pid l).get? i = some (f p) := by
  induction l generalizing i with
  | nil => exact Or.inl rfl
  | cons p rest ih =>
    unfold updateFirst
    split
    · cases i with
      | zero => exact Or.inr ⟨p, rfl, rfl⟩
      | succ n => exact Or.inl rfl
    · cases i with
      | zero => exact Or.inl rfl
      | succ n => exact ih n

/-- C10 invariant: the time bank is non-negative for every player, and the
room's allotted time is non-negative. -/
def timeInv (r : Room) : Prop :=
  0 ≤ r.totalGameTime ∧ ∀ p ∈ r.players, 0 ≤ p.timeRemaining

theorem timeOk_map_of_preserve (l : List Player) (f : Player → Player)
    (hf : ∀ p, (f p).timeRemaining = p.timeRemaining)
    (h : ∀ p ∈ l, 0 ≤ p.timeRemaining) :
    ∀ q ∈ l.map f, 0 ≤ q.timeRemaining := by
  intro q hq
  rcases List.mem_map.mp hq with ⟨p, hp, he⟩
  rw [← he, hf]
  exact h p hp

theorem timeOk_updateFirst (l : List Player) (f : Player → Player)
    (pid : String)
    (hf : ∀ p ∈ l, 0 ≤ p.timeRemaining → 0 ≤ (f p).timeRemaining)
    (h : ∀ p ∈ l, 0 ≤ p.timeRemaining) :
    ∀ q ∈ updateFirst f pid l, 0 ≤ q.timeRemaining := by
  intro q hq
  rcases mem_updateFirst f pid l q hq with hm | ⟨p, hp, he⟩
  · exact h q hm
  · rw [he]
    exact hf p hp (h p hp)

theorem chargeCurrent_timeInv (r : Room) (now : Int) (h : timeInv r) :
    timeInv (chargeCurrent r now) := by
  simp only [chargeCurrent]
  repeat' split
  · exact ⟨h.1, timeOk_updateFirst _ _ _ (fun p _ _ => le_max_left _ _) h.2⟩
  · exact h
  · exact h

theorem awardTimeBonus_timeInv (r : Room) (h : timeInv r) :
    timeInv (awardTimeBonus r) := by
  simp only [awardTimeBonus]
  repeat' split
  · exact ⟨h.1, timeOk_updateFirst _ _ _ (fun p _ hp => hp) h.2⟩
  · exact h
  · exact h

theorem switchTurn_timeInv (r : Room) (now : Int) (h : timeInv r) :
    timeInv (switchTurn r now) := by
  have h1 : timeInv (chargeCurrent { r with turnTimerOn := false } now) :=
    chargeCurrent_timeInv _ now ⟨h.1, h.2⟩
  simp only [switchTurn, startTurnTimer]
  split
  · exact ⟨(awardTimeBonus_timeInv _ h1).1, (awardTimeBonus_timeInv _ h1).2⟩
  · exact ⟨h1.1, timeOk_updateFirst _ _ _ (fun p _ hp => hp) h1.2⟩

theorem turnTimerTick_timeInv (r : Room) (now : Int) (h : timeInv r) :
    timeInv (turnTimerTick r now) := by
  simp only [turnTimerTick]
  split
  · exact h
  split
  · exact h
  split
  · exact h
  split
  · exact switchTurn_timeInv _ now
      ⟨h.1, timeOk_updateFirst _ _ _ (fun p _ _ => le_max_left _ _) h.2⟩
  · exact ⟨h.1, timeOk_updateFirst _ _ _ (fun p _ _ => le_max_left _ _) h.2⟩

end RealWalletWordGridRoom

namespace RealWalletWordGridRoom

theorem startCountdown_timeInv (r : Room) (h : timeInv r) :
    timeInv (startCountdown r) := by
  unfold startCountdown
  split
  · exact h
  · exact ⟨h.1, h.2⟩

theorem addPlayer_timeInv (r : Room) (pid sid w : String) (b : Option ℚ)
    (r1 : Room) (hok : addPlayer r pid sid w b = .ok r1) (h : timeInv r) :
    timeInv r1 := by
  simp only [addPlayer] at hok
  split at hok
  · cases hok
  split at hok
  · cases hok
  split at hok
  · cases hok
  split at hok
  · cases hok
  cases hok
  refine ⟨h.1, fun q hq => ?_⟩
  rcases List.mem_append.mp hq with hm | hm
  · exact h.2 q hm
  · rw [List.mem_singleton.mp hm]
    exact h.1

theorem confirmPayment_timeInv (r : Room) (pid sig : String)
    (lk : LedgerLookup) (o : ConfirmOutcome) (r1 : Room)
    (hok : confirmPayment r pid sig lk = .ok (o, r1)) (h : timeInv r) :
    timeInv r1 := by
  simp only [confirmPayment] at hok
  split at hok
  · cases hok
  split at hok
  · cases hok
    exact h
  split at hok
  · split at hok
    · cases hok
      exact startCountdown_timeInv _
        ⟨h.1, timeOk_updateFirst _ _ _ (fun p _ hp => hp) h.2⟩
    · cases hok
      exact ⟨h.1, timeOk_updateFirst _ _ _ (fun p _ hp => hp) h.2⟩
  · cases hok
    exact h

theorem startGame_timeInv (r : Room) (now : Int) (r1 : Room)
    (hok : startGame r now = .ok r1) (h : timeInv r) : timeInv r1 := by
  simp only [startGame, startTurnTimer] at hok
  split at hok
  · cases hok
  split at hok
  · cases hok
  cases hok
  refine ⟨h.1, fun q hq => ?_⟩
  rcases List.mem_map.mp hq with ⟨p, hp, he⟩
  rw [← he]
  split
  · exact h.2 p hp
  · exact h.2 p hp

theorem countdownFinished_timeInv (r : Room) (now : Int) (h : timeInv r) :
    timeInv (countdownFinished r now) := by
  simp only [countdownFinished]
  split
  · exact h
  split
  next r1 hs => exact startGame_timeInv _ now r1 hs ⟨h.1, h.2⟩
  next e hs => exact ⟨h.1, h.2⟩

theorem finishGame_timeInv (pw : Bool) (r : Room) (reason : String)
    (h : timeInv r) : timeInv (finishGame pw r reason).2 := by
  simp only [finishGame]
  split <;> split
  all_goals
    first
    | exact ⟨h.1, timeOk_map_of_preserve _ _ (fun p => rfl)
        (timeOk_map_of_preserve _ _ (fun p => by split <;> rfl) h.2)⟩
    | exact ⟨h.1, timeOk_map_of_preserve _ _ (fun p => rfl) h.2⟩

theorem firePendingFinish_timeInv (pw : Bool) (r : Room) (h : timeInv r) :
    timeInv (firePendingFinish pw r) := by
  simp only [firePendingFinish]
  split
  · exact h
  · exact finishGame_timeInv pw _ _ ⟨h.1, h.2⟩

theorem timeInv_pendingFinish (r : Room) (l : List String) (h : timeInv r) :
    timeInv { r with pendingFinish := l } := ⟨h.1, h.2⟩

theorem placeLetterCore_timeInv (v : String → Bool) (r : Room) (pid : String)
    (ci : Int) (l : Char) (now : Int) (h : timeInv r) :
    timeInv (placeLetterCore v r pid ci l now).2 := by
  simp only [placeLetterCore]
  split <;> split
  all_goals
    (try apply timeInv_pendingFinish)
    apply switchTurn_timeInv
    refine ⟨h.1, ?_⟩
    first
      | exact timeOk_updateFirst _ _ _ (fun p _ hp => hp) h.2
      | exact timeOk_updateFirst _ _ _ (fun p _ hp => hp)
          (timeOk_updateFirst _ _ _ (fun p _ hp => hp) h.2)

theorem placeLetter_timeInv (v : String → Bool) (r : Room) (pid : String)
    (ci : Int) (l : Char) (now : Int) (res : PlaceResult) (r1 : Room)
    (hok : placeLetter v r pid ci l now = .ok (res, r1)) (h : timeInv r) :
    timeInv r1 := by
  obtain ⟨hcore, -, -, -, -⟩ := placeLetter_ok_core v r pid ci l now res r1 hok
  have h2 := placeLetterCore_timeInv v r pid ci l now h
  rw [← congrArg Prod.snd hcore] at h2
  exact h2

theorem step_timeInv (v : String → Bool) (pw : Bool) (r : Room) (e : Event)
    (h : timeInv r) : timeInv (step v pw r e) := by
  cases e with
  | join pid sid w b =>
    simp only [step]
    split
    next r1 heq => exact addPlayer_timeInv r pid sid w b r1 heq h
    next => exact h
  | confirm pid sig lk =>
    simp only [step]
    split
    next o r1 heq => exact confirmPayment_timeInv r pid sig lk o r1 heq h
    next => exact h
  | countdownDone now => exact countdownFinished_timeInv r now h
  | place pid ci l now =>
    simp only [step]
    split
    next res r1 heq => exact placeLetter_timeInv v r pid ci l now res r1 heq h
    next => exact h
  | timerTick now => exact turnTimerTick_timeInv r now h
  | finishTimeout => exact firePendingFinish_timeInv pw r h

theorem run_timeInv (v : String → Bool) (pw : Bool) :
    ∀ (events : List Event) (r : Room), timeInv r →
      timeInv (run v pw r events) := by
  intro events
  induction events with
  | nil => exact fun r h => h
  | cons e rest ih => exact fun r h => ih _ (step_timeInv v pw r e h)

theorem mkRoom_timeInv (roomId : String) (bet : ℚ) (pwd cw : Option String) :
    timeInv (mkRoom roomId bet pwd cw) :=
  ⟨by norm_num [mkRoom], fun p hp => absurd hp (List.not_mem_nil p)⟩

end RealWalletWordGridRoom

namespace RealWalletWordGridRoom

/-- Position-wise inversion of `updateFirst`. -/
theorem updateFirst_get?_rev (f : Player → Player) (pid : String)
    (l : List Player) (i : Nat) (p' : Player)
    (h : (updateFirst f pid l).get? i = some p') :
    ∃ p, l.get? i = some p ∧ (p' = p ∨ p' = f p) := by
  rcases updateFirst_get? f pid l i with he | ⟨p, hp, he⟩
  · rw [he] at h
    exact ⟨p', h, Or.inl rfl⟩
  · rw [he] at h
    exact ⟨p, hp, Or.inr (Option.some.inj h).symm⟩

/-- The charge applied by `switchTurn` never decreases a player's consumed
time, provided the stored turn start times do not lie in the future. -/
theorem chargeCurrent_totalTimeUsed_mono (r : Room) (now : Int)
    (hts : ∀ p ∈ r.players, ∀ ts, p.turnStartTime = some ts → ts ≤ now) :
    ∀ i p p', r.players.get? i = some p →
      (chargeCurrent r now).players.get? i = some p' →
      p.totalTimeUsed ≤ p'.totalTimeUsed := by
  intro i p p' hp hp'
  simp only [chargeCurrent] at hp'
  split at hp'
  next x1 cp heq =>
    split at hp'
    next x2 ts hts0 =>
      rcases Option.bind_eq_some.mp heq with ⟨pid0, -, hfind⟩
      have hcp : cp ∈ r.players := List.mem_of_find?_eq_some hfind
      have hle : ts ≤ now := hts cp hcp ts hts0
      have hnn : 0 ≤ Int.fdiv (now - ts) 1000 :=
        Int.fdiv_nonneg (by omega) (by norm_num)
      rcases updateFirst_get?_rev _ _ _ i p' hp' with ⟨q, hq, hcase⟩
      rw [hp] at hq
      cases Option.some.inj hq
      rcases hcase with he | he
      · rw [he]
      · rw [he]
        exact le_add_of_nonneg_right hnn
    next x2 =>
      rw [hp] at hp'
      cases Option.some.inj hp'
      exact le_refl _
  next x1 =>
    rw [hp] at hp'
    cases Option.some.inj hp'
    exact le_refl _

end RealWalletWordGridRoom

namespace RealWalletWordGridRoom

theorem updateFirst_get?_of (f : Player → Player) (pid : String)
    (l : List Player) (i : Nat) (p : Player) (h : l.get? i = some p) :
    (updateFirst f pid l).get? i = some p ∨
    (updateFirst f pid l).get? i = some (f p) := by
  rcases updateFirst_get? f pid l i with he | ⟨q, hq, he⟩
  · rw [he, h]
    exact Or.inl rfl
  · rw [h] at hq
    cases Option.some.inj hq
    rw [he]
    exact Or.inr rfl

theorem updateFirst_turnStartTime_bound (f : Player → Player) (pid : String)
    (l : List Player) (now : Int)
    (hf : ∀ p, (f p).turnStartTime = p.turnStartTime)
    (h : ∀ p ∈ l, ∀ ts, p.turnStartTime = some ts → ts ≤ now) :
    ∀ q ∈ updateFirst f pid l, ∀ ts, q.turnStartTime = some ts → ts ≤ now := by
  intro q hq ts hq'
  rcases mem_updateFirst f pid l q hq with hm | ⟨p, hp, he⟩
  · exact h q hm ts hq'
  · rw [he, hf] at hq'
    exact h p hp ts hq'

/-- `switchTurn` never decreases any player's consumed time, provided no
stored turn start time lies in the future. -/
theorem switchTurn_totalTimeUsed_mono (r : Room) (now : Int)
    (hts : ∀ p ∈ r.players, ∀ ts, p.turnStartTime = some ts → ts ≤ now) :
    ∀ i p p', r.players.get? i = some p →
      (switchTurn r now).players.get? i = some p' →
      p.totalTimeUsed ≤ p'.totalTimeUsed := by
  intro i p p' hp hp'
  simp only [switchTurn, startTurnTimer] at hp'
  split at hp'
  · have hmono := chargeCurrent_totalTimeUsed_mono
      { r with turnTimerOn := false } now hts i p
    simp only [awardTimeBonus] at hp'
    split at hp'
    next x1 cp heq =>
      split at hp'
      · rcases updateFirst_get?_rev _ _ _ i p' hp' with ⟨q, hq, hcase⟩
        have hle := hmono q hp hq
        rcases hcase with he | he
        · rw [he]
          exact hle
        · rw [he]
          exact hle
      · exact hmono p' hp hp'
    next x1 =>
      exact hmono p' hp hp'
  · rcases updateFirst_get?_rev _ _ _ i p' hp' with ⟨q, hq, hcase⟩
    have hle := chargeCurrent_totalTimeUsed_mono
      { r with turnTimerOn := false } now hts i p q hp hq
    rcases hcase with he | he
    · rw [he]
      exact hle
    · rw [he]
      exact hle

/-- A timer tick never decreases any player's consumed time, provided no
stored turn start time lies in the future. -/
theorem turnTimerTick_totalTimeUsed_mono (r : Room) (now : Int)
    (hts : ∀ p ∈ r.players, ∀ ts, p.turnStartTime = some ts → ts ≤ now) :
    ∀ i p p', r.players.get? i = some p →
      (turnTimerTick r now).players.get? i = some p' →
      p.totalTimeUsed ≤ p'.totalTimeUsed := by
  intro i p p' hp hp'
  simp only [turnTimerTick] at hp'
  split at hp'
  · rw [hp] at hp'
    cases Option.some.inj hp'
    exact le_refl _
  split at hp'
  next x1 =>
    rw [hp] at hp'
    cases Option.some.inj hp'
    exact le_refl _
  next x1 ap heq =>
  split at hp'
  next x2 =>
    rw [hp] at hp'
    cases Option.some.inj hp'
    exact le_refl _
  next x2 ts hts0 =>
  rcases updateFirst_get?_of
      (fun p0 =>
        { p0 with
          timeRemaining := max 0 (r.totalGameTime -
            (ap.totalTimeUsed + Int.fdiv (now - ts) 1000)) })
      ap.id r.players i p hp with hmid | hmid
  all_goals split at hp'
  · exact switchTurn_totalTimeUsed_mono _ now
      (updateFirst_turnStartTime_bound
        (fun p0 =>
          { p0 with
            timeRemaining := max 0 (r.totalGameTime -
              (ap.totalTimeUsed + Int.fdiv (now - ts) 1000)) })
        ap.id r.players now (fun p0 => rfl) hts)
      i p p' hmid hp'
  · rw [hmid] at hp'
    cases Option.some.inj hp'
    exact le_refl _
  · have hle := switchTurn_totalTimeUsed_mono _ now
      (updateFirst_turnStartTime_bound
        (fun p0 =>
          { p0 with
            timeRemaining := max 0 (r.totalGameTime -
              (ap.totalTimeUsed + Int.fdiv (now - ts) 1000)) })
        ap.id r.players now (fun p0 => rfl) hts)
      i _ p' hmid hp'
    exact hle
  · rw [hmid] at hp'
    cases Option.some.inj hp'
    exact le_refl _

end RealWalletWordGridRoom

/-- C10: the time bank never goes negative — after any sequence of inbound
events (joins, confirmations, countdown expiry, placements with their turn
switches, timer ticks, finish timeouts) processed from a fresh room, every
player's `timeRemaining` is ≥ 0 (every write goes through `max 0 (...)`);
and, provided no stored turn start time lies in the future of the call,
`switchTurn` and a timer tick never decrease any player's consumed time
`totalTimeUsed`. -/
theorem c10_theorem (v : String → Bool) (pw : Bool) (roomId : String)
    (bet : ℚ) (pwd cw : Option String)
    (events : List RealWalletWordGridRoom.Event)
    (r : RealWalletWordGridRoom.Room) (now : Int)
    (hts : ∀ p ∈ r.players, ∀ ts, p.turnStartTime = some ts → ts ≤ now) :
    (∀ p ∈ (RealWalletWordGridRoom.run v pw
        (RealWalletWordGridRoom.mkRoom roomId bet pwd cw) events).players,
      0 ≤ p.timeRemaining) ∧
    (∀ i p p', r.players.get? i = some p →
      (RealWalletWordGridRoom.switchTurn r now).players.get? i = some p' →
      p.totalTimeUsed ≤ p'.totalTimeUsed) ∧
    (∀ i p p', r.players.get? i = some p →
      (RealWalletWordGridRoom.turnTimerTick r now).players.get? i = some p' →
      p.totalTimeUsed ≤ p'.totalTimeUsed) :=
  ⟨fun p hp => (RealWalletWordGridRoom.run_timeInv v pw events _
      (RealWalletWordGridRoom.mkRoom_timeInv roomId bet pwd cw)).2 p hp,
   RealWalletWordGridRoom.switchTurn_totalTimeUsed_mono r now hts,
   RealWalletWordGridRoom.turnTimerTick_totalTimeUsed_mono r now hts⟩

namespace RealWalletWordGridRoom

/-- C10 witness room: mid-game, A on the clock since time 0. -/
def c10Room : Room :=
  { mkRoom "r10" 1 none (some "WA") with
    players :=
      [{ defaultPlayer with
         id := "A", socketId := "sA", wallet := "WA", nickname := "WA",
         betAmount := 1, timeRemaining := 150, paymentConfirmed := true,
         isActive := true, turnStartTime := some 0, isCreator := true },
       { defaultPlayer with
         id := "B", socketId := "sB", wallet := "WB", nickname := "WB",
         betAmount := 1, timeRemaining := 150, paymentConfirmed := true }],
    gamePhase := .playing, currentPlayer := some "A", gameStartTime := some 0,
    turnTimerOn := true, totalEscrowed := 2 }

end RealWalletWordGridRoom

/-- C10 witness: the theorem applied to a concrete room, at wall-clock time
5000 (later than the only stored turn start time, 0). -/
theorem c10_witness :
    (∀ p ∈ (RealWalletWordGridRoom.run (fun _ => false) true
        (RealWalletWordGridRoom.mkRoom "r10" 1 none (some "WA"))
        [RealWalletWordGridRoom.Event.timerTick 5000]).players,
      0 ≤ p.timeRemaining) ∧
    (∀ i p p', RealWalletWordGridRoom.c10Room.players.get? i = some p →
      (RealWalletWordGridRoom.switchTurn
          RealWalletWordGridRoom.c10Room 5000).players.get? i = some p' →
      p.totalTimeUsed ≤ p'.totalTimeUsed) ∧
    (∀ i p p', RealWalletWordGridRoom.c10Room.players.get? i = some p →
      (RealWalletWordGridRoom.turnTimerTick
          RealWalletWordGridRoom.c10Room 5000).players.get? i = some p' →
      p.totalTimeUsed ≤ p'.totalTimeUsed) :=
  c10_theorem (fun _ => false) true "r10" 1 none (some "WA")
    [RealWalletWordGridRoom.Event.timerTick 5000]
    RealWalletWordGridRoom.c10Room 5000
    (by
      intro p hp ts h0
      rcases List.mem_cons.mp hp with h | h
      · subst h
        simp only [RealWalletWordGridRoom.c10Room] at h0
        cases Option.some.inj h0
        norm_num
      rcases List.mem_cons.mp h with h | h
      · subst h
        simp only [RealWalletWordGridRoom.c10Room] at h0
        cases h0
      · cases h)
